import Mathlib

/-!
Verification of lib/backup.py (mysql_utils): shallow embedding of the
backup/restore pipeline core and proofs about its claims.  The source is
Python 2; where Python 2 semantics matter (mixed-type comparison, string
truthiness) the embedding models them explicitly and says so.
-/

namespace MysqlBackup

/-- Ways a modelled Python function can terminate abnormally: an explicit
`raise Exception(msg)` from the source, or an implicit runtime error
(AttributeError from `None.group`, IndexError from `xs[-1]` on an empty
list, ValueError from `int()` on a non-numeric string, ProgrammingError
from executing malformed SQL). -/
inductive PyErr where
  | exception (msg : String)
  | attributeError
  | indexError
  | valueError
  | programmingError
deriving DecidableEq, Repr

instance {ε α : Type} [DecidableEq ε] [DecidableEq α] : DecidableEq (Except ε α) := fun x y =>
  match x, y with
  | .ok a, .ok b =>
    if h : a = b then isTrue (by rw [h]) else isFalse (fun hh => by cases hh; exact h rfl)
  | .error a, .error b =>
    if h : a = b then isTrue (by rw [h]) else isFalse (fun hh => by cases hh; exact h rfl)
  | .ok _, .error _ => isFalse (fun hh => by cases hh)
  | .error _, .ok _ => isFalse (fun hh => by cases hh)

/-- Python substring containment, the `in` operator on strings. -/
def pyIn (needle hay : String) : Bool :=
  hay.data.tails.any (fun t => needle.data.isPrefixOf t)

/-- Whether an error message mentions a given file path: only an explicit
exception has a message, and it names the path iff the path occurs in it. -/
def errNamesPath : PyErr → String → Bool
  | PyErr.exception msg, p => pyIn p msg
  | _, _ => false

/-- Python os.path.join for two components (posixpath.join). -/
def pjoin (a b : String) : String :=
  if b.data.head? == some '/' then b
  else if a = "" || a.data.getLast? == some '/' then a ++ b
  else a ++ "/" ++ b

/-- Characters stripped by Python str.strip() (ASCII whitespace; the rare
\x0b and \x0c are not modelled, no input here contains them). -/
def stripChars (l : List Char) : List Char :=
  ((l.dropWhile Char.isWhitespace).reverse.dropWhile Char.isWhitespace).reverse

/-- Python str.strip() with no argument. -/
def pyStrip (s : String) : String := String.mk (stripChars s.data)

/-- Split a character list at every character satisfying p, keeping empty
fields (acc holds the current field reversed). -/
def splitCharsAux (p : Char → Bool) : List Char → List Char → List String
  | [], acc => [String.mk acc.reverse]
  | c :: rest, acc =>
    if p c then String.mk acc.reverse :: splitCharsAux p rest []
    else splitCharsAux p rest (c :: acc)

/-- Python str.split with the explicit separator "\t". -/
def pySplitTab (s : String) : List String := splitCharsAux (fun c => c = '\t') s.data []

/-- Python str.split() with no separator: split on whitespace runs,
discarding empty fields. -/
def pySplitWs (s : String) : List String :=
  (splitCharsAux Char.isWhitespace s.data []).filter (fun t => t ≠ "")

/-- Numeric value of a list of decimal digit characters. -/
def digitsVal (l : List Char) : Nat :=
  l.foldl (fun a c => a * 10 + (c.toNat - 48)) 0

/-- Python int(s): strip surrounding whitespace, allow one sign character,
then require a nonempty run of decimal digits; anything else raises
ValueError (modelled as none). -/
def pyInt (s : String) : Option Int :=
  let core : List Char → Option Int := fun ds =>
    if !ds.isEmpty && ds.all Char.isDigit then some (digitsVal ds) else none
  match stripChars s.data with
  | [] => none
  | c :: rest =>
    if c = '-' then (core rest).map (fun n => -n)
    else if c = '+' then core rest
    else core (c :: rest)

/-- CPython 2 comparison of a str value against an int value.  CPython 2
orders values of different non-coercible types by type, with all numbers
before everything else, so an int is less than every str and a str is
never less than an int: the comparison is constantly false, whatever the
digits in the string say. -/
def py2_str_lt_int (s : String) (n : Nat) : Bool := false

/-! ## Constants from the head of lib/backup.py -/

def PV : String := "/usr/bin/pv -peafbt"
def SSH_OPTIONS : String := "-q -o UserKnownHostsFile=/dev/null -o StrictHostKeyChecking=no"
def SSH_AUTH : String := "-i /home/dbutil/.ssh/id_rsa dbutil"
def S3_SCRIPT : String := "/usr/local/bin/gof3r"
def TEMP_DIR : String := "/backup/tmp/xtrabackup"
def TARGET_DIR : String := "/backup/mysql"
def XBSTREAM_SUFFIX : String := ".xbstream"
def MINIMUM_VALID_BACKUP_SIZE_BYTES : Nat := 1024 * 1024
def INNOBACKUPEX_OK : String := "innobackupex: completed OK!"

/-! ## BinlogPositionParser: parse_xtrabackup_slave_info and
parse_xtrabackup_binlog_info -/

/-- The single-quote character. -/
def squote : Char := Char.ofNat 39

/-- The regex character class [a-z0-9-.] from the slave-info file pattern
(lowercase letters, digits, hyphen, dot). -/
def isFileClassChar (c : Char) : Bool :=
  ('a' ≤ c && c ≤ 'z') || c.isDigit || c == '-' || c == '.'

/-- Literal part of the pattern .*MASTER_LOG_FILE='([a-z0-9-.]+)'.* up to
the capture group. -/
def LIT_FILE : List Char := "MASTER_LOG_FILE=".data ++ [squote]

/-- Literal part of the pattern .*MASTER_LOG_POS=([0-9]+).* up to the
capture group. -/
def LIT_POS : List Char := "MASTER_LOG_POS=".data

/-- One attempt of the tail MASTER_LOG_FILE='([a-z0-9-.]+)'.* of the
slave-info file pattern at a given position (s is the remainder of the
subject): the literal, then the capture group.  [a-z0-9-.]+ is greedy and
the closing quote is not a class character, so the group is exactly the
maximal nonempty run of class characters and must be followed by the
closing quote (no shorter run could be, so backtracking inside the group
never helps).  The final .* always matches.  Returns group 1. -/
def matchFileAt (s : List Char) : Option (List Char) :=
  if LIT_FILE.isPrefixOf s then
    let rest := s.drop LIT_FILE.length
    let g := rest.takeWhile isFileClassChar
    let rest2 := rest.drop g.length
    if !g.isEmpty && rest2.head? == some squote then some g else none
  else none

/-- One attempt of the tail MASTER_LOG_POS=([0-9]+).* of the position
pattern at a given position: the literal, then a maximal nonempty digit
run.  Returns group 1. -/
def matchPosAt (s : List Char) : Option (List Char) :=
  if LIT_POS.isPrefixOf s then
    let g := (s.drop LIT_POS.length).takeWhile Char.isDigit
    if !g.isEmpty then some g else none
  else none

/-- Greedy scan for a leading .* under re.match: the engine consumes as
much of the subject as possible before trying the rest of the pattern, so
the rightmost position whose tail matches wins. -/
def scanGreedy (att : List Char → Option α) : List Char → Option α
  | [] => att []
  | c :: rest =>
    match scanGreedy att rest with
    | some r => some r
    | none => att (c :: rest)

/-- In Python re the dot does not match a newline and re.match anchors at
the start of the subject, so a pattern of the shape .*LIT...* matches
within the first line only. -/
def firstLine (data : String) : List Char := data.data.takeWhile (fun c => c ≠ '\n')

/-- re.match of the slave-info file pattern, returning group 1. -/
def re_match_slave_file (data : String) : Option (List Char) :=
  scanGreedy matchFileAt (firstLine data)

/-- re.match of the slave-info position pattern, returning group 1. -/
def re_match_slave_pos (data : String) : Option (List Char) :=
  scanGreedy matchPosAt (firstLine data)

/-- Shallow embedding of parse_xtrabackup_slave_info.  The file content is
passed as data (the source reads it from datadir/xtrabackup_slave_info).
When a pattern does not match, re.match returns None and the subsequent
None.group(1) raises AttributeError; the datadir appears in no message. -/
def parse_xtrabackup_slave_info (datadir : String) (data : String) :
    Except PyErr (String × Int) :=
  match re_match_slave_file data with
  | none => .error .attributeError
  | some binlog_file =>
    match re_match_slave_pos data with
    | none => .error .attributeError
    | some pos => .ok (String.mk binlog_file, (digitsVal pos : Int))

/-- Shallow embedding of parse_xtrabackup_binlog_info: strip the content,
split on tabs, demand exactly two fields (else raise an Exception naming
the file path), strip each field and int() the second. -/
def parse_xtrabackup_binlog_info (datadir : String) (data : String) :
    Except PyErr (String × Int) :=
  let file_path := pjoin datadir "xtrabackup_binlog_info"
  match pySplitTab (pyStrip data) with
  | [f, p] =>
    match pyInt (pyStrip p) with
    | none => .error .valueError
    | some binlog_pos => .ok (pyStrip f, binlog_pos)
  | _ => .error (.exception ("Error: Invalid format in file " ++ file_path))

/-! ## ArtifactStore: get_remote_backup and get_s3_backup -/

/-- Shallow embedding of get_remote_backup.  The stdout and stderr of the
remote `ls -tl ... | head -n1` are inputs.  entries[4] is the size column
of the listing and entries[8] the path, both raw strings; the minimum-size
comparison is the CPython 2 str-vs-int comparison and hence never true,
so the too-small branch is dead.  Missing columns raise IndexError. -/
def get_remote_backup (hostname : String) (port : Nat) (out err : String) :
    Except PyErr (String × String) :=
  let path := pjoin TARGET_DIR (toString port)
  if out = "" then
    .error (.exception ("No backup found for " ++ hostname ++ " in " ++ path ++
      ".\nError: " ++ err))
  else
    let entries := pySplitWs out
    match entries.get? 4 with
    | none => .error .indexError
    | some size =>
      match entries.get? 8 with
      | none => .error .indexError
      | some filename =>
        if py2_str_lt_int size MINIMUM_VALID_BACKUP_SIZE_BYTES then
          .error (.exception ("Found backup " ++ filename ++ " for host " ++ hostname ++
            " but it is too small... (" ++ size ++ " bytes < " ++
            toString MINIMUM_VALID_BACKUP_SIZE_BYTES ++ " bytes) Ignoring it."))
        else .ok (filename, size)

/-- Lexicographic strict order on character lists: Python 2's comparison
of byte strings (a proper initial segment is smaller, otherwise the first
differing character decides). -/
def charListLt : List Char → List Char → Bool
  | _, [] => false
  | [], _ :: _ => true
  | a :: as, b :: bs =>
    if a < b then true else if b < a then false else charListLt as bs

/-- Python 2 comparison of two strings with the < operator. -/
def pyStrLt (a b : String) : Bool := charListLt a.data b.data

/-- A boto bucket key as seen by get_s3_backup: its name, its size in
bytes, and its last-modified stamp (a string in boto, compared with the
Python 2 string ordering). -/
structure S3Key where
  name : String
  size : Nat
  last_modified : String
deriving DecidableEq, Repr

/-- Filter from the get_s3_backup loop: the suffix constant occurs
somewhere in the key name (a containment test, not an endswith test) and
the size is strictly above the minimum. -/
def s3_pass (k : S3Key) : Bool :=
  pyIn XBSTREAM_SUFFIX k.name && decide (k.size > MINIMUM_VALID_BACKUP_SIZE_BYTES)

/-- The selection loop of get_s3_backup: among passing keys keep the one
with the greatest last_modified, the earlier-listed key winning ties
(the comparison is strict). -/
def s3_latest : List S3Key → Option S3Key → Option S3Key
  | [], latest => latest
  | elem :: rest, latest =>
    if s3_pass elem then
      match latest with
      | none => s3_latest rest (some elem)
      | some lb =>
        if pyStrLt lb.last_modified elem.last_modified then s3_latest rest (some elem)
        else s3_latest rest (some lb)
    else s3_latest rest latest

/-- Shallow embedding of get_s3_backup.  The bucket listing under the
mysql-host-port[-date] key prefix is the input (the credential fallback
only affects how the same listing is obtained).  The hostaddr in the
failure message renders as host:port.  Both the empty listing and a
listing whose keys all fail the filter produce the same single error. -/
def get_s3_backup (hostname : String) (port : Nat) (items : List S3Key) :
    Except PyErr (String × Nat) :=
  match s3_latest items none with
  | none => .error (.exception ("Unable to find a valid backup for " ++ hostname ++
      ":" ++ toString port))
  | some latest_backup => .ok (latest_backup.name, latest_backup.size)

/-! ## BackupExecutor: xtrabackup_instance -/

/-- Artifact file name mysql-host-port-timestamp.xbstream built by
xtrabackup_instance. -/
def backup_file_name (hostname : String) (port : Nat) (timestamp : String) : String :=
  "mysql-" ++ hostname ++ "-" ++ toString port ++ "-" ++ timestamp ++ ".xbstream"

/-- Scratch path of the artifact (under TEMP_DIR/port, from get_paths). -/
def tmp_xtra_path (hostname : String) (port : Nat) (timestamp : String) : String :=
  pjoin (pjoin TEMP_DIR (toString port)) (backup_file_name hostname port timestamp)

/-- Durable path of the artifact (under TARGET_DIR/port, from get_paths). -/
def target_xtra_path (hostname : String) (port : Nat) (timestamp : String) : String :=
  pjoin (pjoin TARGET_DIR (toString port)) (backup_file_name hostname port timestamp)

/-- Scratch path of the diagnostic log. -/
def tmp_log (hostname : String) (port : Nat) (timestamp : String) : String :=
  tmp_xtra_path hostname port timestamp ++ ".log"

/-- Destination the source renames the log to: the source computes
target_log from tmp_xtra_path (not target_xtra_path), so it equals the
scratch log path and the rename is a self-rename. -/
def target_log (hostname : String) (port : Nat) (timestamp : String) : String :=
  tmp_xtra_path hostname port timestamp ++ ".log"

/-- Final locations of the backup artifact and of its diagnostic log after
xtrabackup_instance returns or raises. -/
structure BackupFiles where
  artifact : String
  logFile : String
deriving DecidableEq, Repr

/-- Shallow embedding of xtrabackup_instance.  The external innobackupex
run is abstracted by the list of lines it leaves in the scratch diagnostic
log; after the run the artifact sits at tmp_xtra_path and the log at
tmp_log.  The last log line (xtra_log[-1], IndexError when the log is
empty) must contain the success marker, else an Exception naming the
scratch log path is raised with nothing renamed; on success the artifact
is renamed to target_xtra_path and the log to target_log, and
target_xtra_path is returned. -/
def xtrabackup_instance (hostname : String) (port : Nat) (timestamp : String)
    (xtra_log : List String) : Except PyErr String × BackupFiles :=
  match xtra_log.getLast? with
  | none => (.error .indexError,
      ⟨tmp_xtra_path hostname port timestamp, tmp_log hostname port timestamp⟩)
  | some lastLine =>
    if pyIn INNOBACKUPEX_OK lastLine then
      (.ok (target_xtra_path hostname port timestamp),
       ⟨target_xtra_path hostname port timestamp, target_log hostname port timestamp⟩)
    else
      (.error (.exception ("innobackupex failed. log_file: " ++ tmp_log hostname port timestamp)),
       ⟨tmp_xtra_path hostname port timestamp, tmp_log hostname port timestamp⟩)

/-! ## RetentionManager: remove_backups

The directory is modelled as a list of (name, mtime) entries; the model
returns the directory contents after the call, or none when an os.remove
target does not exist (OSError). -/

/-- Python tuple comparison used by files.sort() on (mtime, fullpath)
pairs: lexicographic, string order on the path breaking mtime ties.  The
string half is phrased with the core strict order so that it evaluates. -/
def fileLe (a b : Nat × String) : Prop :=
  a.1 < b.1 ∨ (a.1 = b.1 ∧ ¬ b.2 < a.2)

instance : DecidableRel fileLe := fun a b => by
  unfold fileLe; infer_instance

instance : IsTotal (Nat × String) fileLe := by
  constructor
  intro a b
  rcases Nat.lt_trichotomy a.1 b.1 with h | h | h
  · exact Or.inl (Or.inl h)
  · rcases le_or_lt a.2 b.2 with h2 | h2
    · exact Or.inl (Or.inr ⟨h, not_lt.mpr h2⟩)
    · exact Or.inr (Or.inr ⟨h.symm, not_lt.mpr h2.le⟩)
  · exact Or.inr (Or.inl h)

instance : IsTrans (Nat × String) fileLe := by
  constructor
  intro a b c hab hbc
  rcases hab with h | ⟨he, hs⟩
  · rcases hbc with h2 | ⟨he2, _⟩
    · exact Or.inl (h.trans h2)
    · exact Or.inl (he2 ▸ h)
  · rcases hbc with h2 | ⟨he2, hs2⟩
    · exact Or.inl (he ▸ h2)
    · exact Or.inr ⟨he.trans he2, fun hlt => hs2 (lt_of_lt_of_le hlt (not_lt.mp hs))⟩

/-- Python entry.endswith(tuple): any extension in the group matches. -/
def endswithAny (extension : List String) (s : String) : Bool :=
  extension.any (fun e => e.data.isSuffixOf s.data)

/-- Directory entries whose name ends with one of the extensions. -/
def matchedEntries (dir : List (String × Nat)) (extension : List String) :
    List (String × Nat) :=
  dir.filter (fun e => endswithAny extension e.1)

/-- os.remove of full path fp inside backup_path: delete the entry whose
joined path is fp, OSError (none) when no such entry exists. -/
def osRemove (backup_path : String) (fs : List (String × Nat)) (fp : String) :
    Option (List (String × Nat)) :=
  if fs.any (fun e => pjoin backup_path e.1 == fp) then
    some (fs.filter (fun e => pjoin backup_path e.1 != fp))
  else none

/-- Deletion loop of remove_backups over the scheduled (mtime, fullpath)
entries: os.remove the backup file, then its fullpath ++ ".log" companion
when os.path.isfile finds it (its absence is not an error). -/
def delete_loop (backup_path : String) :
    List (String × Nat) → List (Nat × String) → Option (List (String × Nat))
  | fs, [] => some fs
  | fs, entry :: rest =>
    match osRemove backup_path fs entry.2 with
    | none => none
    | some fs1 =>
      let log_file := entry.2 ++ ".log"
      let fs2 :=
        if fs1.any (fun e => pjoin backup_path e.1 == log_file) then
          fs1.filter (fun e => pjoin backup_path e.1 != log_file)
        else fs1
      delete_loop backup_path fs2 rest

/-- Shallow embedding of remove_backups: collect (mtime, fullpath) for
every matching entry, sort ascending (the source's stable list.sort() on
distinct keys agrees with any sort by the same total order), and delete
all but the keep_newest most recent together with their .log companions. -/
def remove_backups (backup_path : String) (dir : List (String × Nat))
    (extension : List String) (keep_newest : Nat) : Option (List (String × Nat)) :=
  let files : List (Nat × String) :=
    (matchedEntries dir extension).map (fun e => (e.2, pjoin backup_path e.1))
  let sorted := List.insertionSort fileLe files
  let to_delete := files.length - keep_newest
  delete_loop backup_path dir (sorted.take to_delete)

/-! ## RestoreStatusTracker: start_restore_log and update_restore_log -/

/-- One row of test.xb_restore_status.  Timestamps are opaque strings;
NULL-able columns are Options; restore_status defaults to IPR. -/
structure LedgerRow where
  id : Nat
  restore_source : String
  restore_type : String
  restore_file : String
  restore_destination : String
  restore_date : String
  restore_port : Nat
  replication : Option String
  zookeeper : Option String
  started_at : String
  finished_at : Option String
  restore_status : String
  status_message : Option String
deriving DecidableEq, Repr

/-- Parameter dict of start_restore_log (the keys its REPLACE INTO binds). -/
structure StartParams where
  restore_source : String
  restore_type : String
  restore_file : String
  source_instance : String
  restore_date : String
  restore_port : Nat
  replication : Option String
  zookeeper : Option String
deriving DecidableEq, Repr

/-- Shallow embedding of start_restore_log.  connOk models whether
mysql_lib.connect_mysql succeeds (on failure a warning is logged and None
returned), execOk whether cursor.execute succeeds (its failure is also
caught, logging a warning and leaving row_id None); the table bootstrap is
idempotent and not modelled further.  The REPLACE INTO sets no unique key
besides the auto id, so it inserts a fresh IPR row whose auto id is
lastrowid. -/
def start_restore_log (connOk execOk : Bool) (ledger : List LedgerRow)
    (p : StartParams) (now : String) : Option Nat × List LedgerRow :=
  if !connOk then (none, ledger)
  else if !execOk then (none, ledger)
  else
    let newId := (ledger.foldl (fun m r => max m r.id) 0) + 1
    let row : LedgerRow :=
      { id := newId
        restore_source := p.restore_source
        restore_type := p.restore_type
        restore_file := p.restore_file
        restore_destination := p.source_instance
        restore_date := p.restore_date
        restore_port := p.restore_port
        replication := p.replication
        zookeeper := p.zookeeper
        started_at := now
        finished_at := none
        restore_status := "IPR"
        status_message := none }
    (some newId, ledger ++ [row])

/-- Parameter dict of update_restore_log: which recognized keys are
present, and with what values (finished_at is set to NOW(), so only its
presence matters). -/
structure UpdateParams where
  finished_at : Bool
  restore_status : Option String
  status_message : Option String
  replication : Option String
  zookeeper : Option String
deriving DecidableEq, Repr

/-- The assignments update_restore_log can place in its SET clause. -/
inductive UpdField where
  | finished_at
  | restore_status
  | status_message
  | replication
  | zookeeper
deriving DecidableEq, Repr

/-- updates_fields as built by the source, in source order; note the
source tests and appends finished_at twice. -/
def updates_fields (p : UpdateParams) : List UpdField :=
  (if p.finished_at then [UpdField.finished_at] else []) ++
  (if p.restore_status.isSome then [UpdField.restore_status] else []) ++
  (if p.status_message.isSome then [UpdField.status_message] else []) ++
  (if p.replication.isSome then [UpdField.replication] else []) ++
  (if p.zookeeper.isSome then [UpdField.zookeeper] else []) ++
  (if p.finished_at then [UpdField.finished_at] else [])

/-- Apply one SET assignment to a row. -/
def applyField (now : String) (p : UpdateParams) (r : LedgerRow) : UpdField → LedgerRow
  | .finished_at => { r with finished_at := some now }
  | .restore_status => { r with restore_status := (p.restore_status).getD r.restore_status }
  | .status_message => { r with status_message := p.status_message }
  | .replication => { r with replication := p.replication }
  | .zookeeper => { r with zookeeper := p.zookeeper }

/-- WHERE id = %(row_id)s: a missing row_id binds SQL NULL and id = NULL
holds of no row. -/
def rowMatches (row_id : Option Nat) (r : LedgerRow) : Bool :=
  match row_id with
  | none => false
  | some i => r.id == i

/-- Shallow embedding of update_restore_log.  A connection failure is
caught (warning logged, plain return, ledger untouched).  Otherwise the
UPDATE runs: with an empty updates_fields list the statement reads
UPDATE ... SET  WHERE ..., malformed SQL that cursor.execute raises on;
with assignments present each row matching the WHERE clause gets them
applied in order. -/
def update_restore_log (connOk : Bool) (ledger : List LedgerRow) (row_id : Option Nat)
    (p : UpdateParams) (now : String) : Except PyErr (List LedgerRow) :=
  if !connOk then .ok ledger
  else
    let fields := updates_fields p
    if fields.isEmpty then .error .programmingError
    else .ok (ledger.map (fun r =>
      if rowMatches row_id r then fields.foldl (applyField now p) r else r))

/-! ## RestoreUnpacker: xbstream_unpack -/

/-- Python truthiness of the optional size argument: None and 0 are falsy. -/
def sizeTruthy : Option Nat → Bool
  | none => false
  | some n => n != 0

/-- Uppercase hexadecimal digit. -/
def hexDigit (n : Nat) : Char :=
  if n < 10 then Char.ofNat (48 + n) else Char.ofNat (55 + n)

/-- urllib.quote_plus on one ASCII character: letters, digits and _.- are
kept, a space becomes +, everything else is percent-encoded. -/
def quotePlusChar (c : Char) : List Char :=
  if ('a' ≤ c && c ≤ 'z') || ('A' ≤ c && c ≤ 'Z') || c.isDigit ||
      c == '_' || c == '.' || c == '-' then [c]
  else if c = ' ' then ['+']
  else ['%', hexDigit (c.toNat / 16 % 16), hexDigit (c.toNat % 16)]

/-- Python 2 urllib.quote_plus (on ASCII input). -/
def quote_plus (s : String) : String := String.mk (s.data.flatMap quotePlusChar)

/-- Wrap a string in single quotes. -/
def squoted (s : String) : String := String.mk ([squote] ++ s.data ++ [squote])

/-- Shallow embedding of xbstream_unpack, returning the shell pipeline it
builds (the subprocess run and its exit status are external).  The source
stage depends on restore_type, with unsupported types raising; the pv -s
metering stage is appended when size is truthy and restore_type differs
from the literal 'localhost' — which every supported restore_type does,
local_file included; the xbstream extraction stage terminates the pipe. -/
def xbstream_unpack (xbstream : String) (port : Nat) (restore_source_host : String)
    (restore_type : String) (size : Option Nat) (bucket : String) (datadir : String) :
    Except PyErr String :=
  let base : Except PyErr String :=
    if restore_type = "s3" then
      .ok (S3_SCRIPT ++ " get --no-md5 -b " ++ bucket ++ " -k " ++ quote_plus xbstream ++
        " 2>/dev/null ")
    else if restore_type = "local_file" then
      .ok (PV ++ " " ++ xbstream)
    else if restore_type = "remote_server" then
      .ok ("ssh " ++ SSH_OPTIONS ++ " " ++ SSH_AUTH ++ "@" ++ restore_source_host ++ " " ++
        squoted ("/bin/cat " ++ xbstream) ++ " ")
    else
      .error (.exception ("Restore type " ++ restore_type ++ " is not supported"))
  match base with
  | .error e => .error e
  | .ok cmd0 =>
    let cmd1 :=
      if sizeTruthy size && restore_type != "localhost" then
        cmd0 ++ " | " ++ PV ++ " -s " ++ toString (size.getD 0)
      else cmd0
    .ok (cmd1 ++ " | /usr/bin/xbstream -x -C " ++ datadir)

/-- Canonical well-formed xtrabackup_slave_info content: a CHANGE MASTER
statement with the given file name and position digits embedded, per the
layout in the source's docstring example. -/
def slaveData (f ds : List Char) : String :=
  String.mk ("CHANGE MASTER TO ".data ++
    (LIT_FILE ++ (f ++ squote :: (", MASTER_LOG_POS=".data ++ ds))))

/-- The prefix os.path.join places before a relative name. -/
def joinPre (bp : String) : String :=
  if bp = "" || bp.data.getLast? == some '/' then bp else bp ++ "/"

/-- The (mtime, fullpath) list remove_backups builds before sorting. -/
def retention_files (bp : String) (dir : List (String × Nat)) (ext : List String) :
    List (Nat × String) :=
  (matchedEntries dir ext).map (fun e => (e.2, pjoin bp e.1))

/-- The sorted (mtime, fullpath) list of remove_backups. -/
def retention_sorted (bp : String) (dir : List (String × Nat)) (ext : List String) :
    List (Nat × String) :=
  List.insertionSort fileLe (retention_files bp dir ext)

/-- The files[:to_delete] slice remove_backups deletes. -/
def retention_toDel (bp : String) (dir : List (String × Nat)) (ext : List String)
    (keep : Nat) : List (Nat × String) :=
  (retention_sorted bp dir ext).take ((retention_files bp dir ext).length - keep)

/-- The slice remove_backups keeps. -/
def retention_kept (bp : String) (dir : List (String × Nat)) (ext : List String)
    (keep : Nat) : List (Nat × String) :=
  (retention_sorted bp dir ext).drop ((retention_files bp dir ext).length - keep)

/-! ## Claim theorems -/

theorem charListLt_irrefl : ∀ a : List Char, charListLt a a = false := by
  intro a
  induction a with
  | nil => rfl
  | cons x xs ih => simp [charListLt, lt_irrefl, ih]

theorem charListLt_trans : ∀ a b c : List Char,
    charListLt a b = true → charListLt b c = true → charListLt a c = true := by
  intro a
  induction a with
  | nil =>
    intro b c hab hbc
    cases b with
    | nil => exact absurd hab (by simp [charListLt])
    | cons y ys =>
      cases c with
      | nil => exact absurd hbc (by simp [charListLt])
      | cons z zs => rfl
  | cons x xs ih =>
    intro b c hab hbc
    cases b with
    | nil => exact absurd hab (by simp [charListLt])
    | cons y ys =>
      cases c with
      | nil => exact absurd hbc (by simp [charListLt])
      | cons z zs =>
        simp only [charListLt] at hab hbc ⊢
        by_cases hxy : x < y
        · by_cases hyz : y < z
          · simp [lt_trans hxy hyz]
          · by_cases hzy : z < y
            · simp [hyz, hzy] at hbc
            · have hyzeq : y = z := le_antisymm (not_lt.mp hzy) (not_lt.mp hyz)
              subst hyzeq
              simp [hxy]
        · by_cases hyx : y < x
          · simp [hxy, hyx] at hab
          · have hxyeq : x = y := le_antisymm (not_lt.mp hyx) (not_lt.mp hxy)
            subst hxyeq
            simp [lt_irrefl] at hab
            by_cases hxz : x < z
            · simp [hxz]
            · by_cases hzx : z < x
              · simp [hxz, hzx] at hbc
              · have hxzeq : x = z := le_antisymm (not_lt.mp hzx) (not_lt.mp hxz)
                subst hxzeq
                simp [lt_irrefl] at hbc ⊢
                exact ih ys zs hab hbc

theorem charListLt_negtrans : ∀ b a c : List Char,
    charListLt b a = false → charListLt c b = false → charListLt c a = false := by
  intro b
  induction b with
  | nil =>
    intro a c hba hcb
    cases a with
    | nil =>
      cases c with
      | nil => rfl
      | cons z zs => exact hcb
    | cons w ws => exact absurd hba (by simp [charListLt])
  | cons x xs ih =>
    intro a c hba hcb
    cases c with
    | nil => exact absurd hcb (by simp [charListLt])
    | cons z zs =>
      cases a with
      | nil => rfl
      | cons w ws =>
        simp only [charListLt] at hba hcb ⊢
        by_cases hxw : x < w
        · simp [hxw] at hba
        · by_cases hzx : z < x
          · simp [hzx] at hcb
          · by_cases hzw : z < w
            · exact absurd hzw (not_lt.mpr (le_trans (not_lt.mp hxw) (not_lt.mp hzx)))
            · simp only [hzw, if_false]
              by_cases hwz : w < z
              · simp [hwz]
              · have hxw_eq : x = w :=
                  le_antisymm (le_trans (not_lt.mp hzx) (not_lt.mp hwz)) (not_lt.mp hxw)
                subst hxw_eq
                have hzx_eq : z = x := le_antisymm (not_lt.mp hwz) (not_lt.mp hzx)
                subst hzx_eq
                simp [lt_irrefl] at hba hcb ⊢
                exact ih ws zs hba hcb

theorem pyStrLt_irrefl (a : String) : pyStrLt a a = false := charListLt_irrefl a.data

theorem pyStrLt_trans {a b c : String} (hab : pyStrLt a b = true) (hbc : pyStrLt b c = true) :
    pyStrLt a c = true := charListLt_trans a.data b.data c.data hab hbc

theorem pyStrLt_negtrans {b a c : String} (hba : pyStrLt b a = false)
    (hcb : pyStrLt c b = false) : pyStrLt c a = false :=
  charListLt_negtrans b.data a.data c.data hba hcb

/-- C1: the claim says neither locate variant ever returns an artifact
whose reported size is below 1,048,576 bytes.  The remote_server variant
does: its size field is the raw string from the listing and the CPython 2
str-vs-int comparison guarding the too-small branch is constantly false,
so a 512-byte backup is found and returned. -/
theorem claim_C1_remote_returns_undersized :
    get_remote_backup "testdb001" 3306
      "-rw-r--r-- 1 dbutil dbutil 512 Jun  6 2014 /backup/mysql/3306/mysql-testdb001-3306-2014-06-06.xbstream"
      "" =
      .ok ("/backup/mysql/3306/mysql-testdb001-3306-2014-06-06.xbstream", "512") ∧
    (512 : Nat) < MINIMUM_VALID_BACKUP_SIZE_BYTES := by
  decide

/-- C2 (counterexample): with an empty diagnostic log the claim promises a
BackupFailedError carrying the diagnostic log path, but the code indexes
xtra_log[-1] on an empty list and dies with IndexError, which names no
path (nothing is relocated either). -/
theorem claim_C2_counterexample :
    xtrabackup_instance "testdb001" 3306 "2014-06-06-01:02:03" [] =
      (.error PyErr.indexError,
       ⟨"/backup/tmp/xtrabackup/3306/mysql-testdb001-3306-2014-06-06-01:02:03.xbstream",
        "/backup/tmp/xtrabackup/3306/mysql-testdb001-3306-2014-06-06-01:02:03.xbstream.log"⟩) ∧
    errNamesPath PyErr.indexError
      "/backup/tmp/xtrabackup/3306/mysql-testdb001-3306-2014-06-06-01:02:03.xbstream.log" = false := by
  decide

/-- C2 (amended): when the diagnostic log is nonempty and its last line
lacks the success marker, the run fails with the Exception naming the
scratch log path and neither the artifact nor the log leaves scratch
storage; when the log is empty the run still fails without relocating
anything, but with an IndexError that carries no path. -/
theorem claim_C2_amended (hostname : String) (port : Nat) (timestamp : String)
    (xtra_log : List String) (lastLine : String)
    (hlast : xtra_log.getLast? = some lastLine)
    (hmark : pyIn INNOBACKUPEX_OK lastLine = false) :
    xtrabackup_instance hostname port timestamp xtra_log =
      (.error (.exception ("innobackupex failed. log_file: " ++ tmp_log hostname port timestamp)),
       ⟨tmp_xtra_path hostname port timestamp, tmp_log hostname port timestamp⟩) ∧
    xtrabackup_instance hostname port timestamp [] =
      (.error PyErr.indexError,
       ⟨tmp_xtra_path hostname port timestamp, tmp_log hostname port timestamp⟩) := by
  constructor
  · simp only [xtrabackup_instance, hlast, hmark, if_false, Bool.false_eq_true]
  · rfl

theorem claim_C2_amended_witness :
    xtrabackup_instance "testdb001" 3306 "2014-06-06-01:02:03" ["error: query was killed"] =
      (.error (.exception ("innobackupex failed. log_file: " ++
          tmp_log "testdb001" 3306 "2014-06-06-01:02:03")),
       ⟨tmp_xtra_path "testdb001" 3306 "2014-06-06-01:02:03",
        tmp_log "testdb001" 3306 "2014-06-06-01:02:03"⟩) ∧
    xtrabackup_instance "testdb001" 3306 "2014-06-06-01:02:03" [] =
      (.error PyErr.indexError,
       ⟨tmp_xtra_path "testdb001" 3306 "2014-06-06-01:02:03",
        tmp_log "testdb001" 3306 "2014-06-06-01:02:03"⟩) :=
  claim_C2_amended "testdb001" 3306 "2014-06-06-01:02:03" ["error: query was killed"]
    "error: query was killed" (by decide) (by decide)

/-- C3: the claim says both the artifact and its diagnostic log are
relocated into durable storage.  On a successful run the artifact is, but
the source computes target_log from the scratch path, so the log's rename
destination equals its scratch location and the log never reaches the
durable directory (whose log path would be the artifact's durable path
plus .log). -/
theorem claim_C3_log_not_relocated :
    xtrabackup_instance "testdb001" 3306 "2014-06-06-01:02:03" ["innobackupex: completed OK!"] =
      (.ok "/backup/mysql/3306/mysql-testdb001-3306-2014-06-06-01:02:03.xbstream",
       ⟨"/backup/mysql/3306/mysql-testdb001-3306-2014-06-06-01:02:03.xbstream",
        "/backup/tmp/xtrabackup/3306/mysql-testdb001-3306-2014-06-06-01:02:03.xbstream.log"⟩) ∧
    target_log "testdb001" 3306 "2014-06-06-01:02:03" =
      tmp_log "testdb001" 3306 "2014-06-06-01:02:03" ∧
    tmp_log "testdb001" 3306 "2014-06-06-01:02:03" ≠
      target_xtra_path "testdb001" 3306 "2014-06-06-01:02:03" ++ ".log" := by
  decide

/-- C5 (counterexample): on a slave-info file that matches neither
pattern the claim promises a FormatError naming the offending file path;
the code instead calls .group(1) on None and dies with AttributeError,
which names nothing. -/
theorem claim_C5_counterexample :
    parse_xtrabackup_slave_info "/restore/data" "not a change master statement" =
      .error PyErr.attributeError ∧
    errNamesPath PyErr.attributeError "/restore/data/xtrabackup_slave_info" = false := by
  decide

/-- C6 (counterexample): the claim says no key lacking the artifact
suffix is ever selected, but the filter is a containment test, and a key
whose name merely contains .xbstream in the middle is selected. -/
theorem claim_C6_counterexample :
    get_s3_backup "testdb001" 3306
      [⟨"mysql-testdb001-3306-2014-06-06.xbstream.tmp", 2097152, "2014-06-07T01:02:03.000Z"⟩] =
      .ok ("mysql-testdb001-3306-2014-06-06.xbstream.tmp", 2097152) ∧
    XBSTREAM_SUFFIX.data.isSuffixOf "mysql-testdb001-3306-2014-06-06.xbstream.tmp".data = false := by
  decide

/-- C7 (counterexample): the claim says a no-candidate failure and an
only-undersized-candidates failure are distinguishable; get_s3_backup
raises the identical exception for an empty listing and for a listing
whose only key is under the threshold. -/
theorem claim_C7_counterexample :
    get_s3_backup "testdb001" 3306
      [⟨"mysql-testdb001-3306-2014-06-06.xbstream", 512, "2014-06-07T01:02:03.000Z"⟩] =
      .error (.exception "Unable to find a valid backup for testdb001:3306") ∧
    get_s3_backup "testdb001" 3306 [] =
      .error (.exception "Unable to find a valid backup for testdb001:3306") := by
  decide

/-- C8 (counterexample): the claim says an update with no job id is a
silent no-op; with no recognized field present the generated UPDATE has
an empty SET clause and cursor.execute raises on the malformed SQL even
though row_id is absent. -/
theorem claim_C8_counterexample :
    update_restore_log true [] none ⟨false, none, none, none, none⟩ "2014-06-06 00:00:00" =
      .error PyErr.programmingError := by
  decide

/-- C9: the claim says the pv -s metering stage is never inserted for a
local file source; the guard compares restore_type against the literal
localhost, which no supported restore_type equals, so for a local_file
unpack with a known size the metering stage appears in the pipeline. -/
theorem claim_C9_pv_metering_inserted_for_local_file :
    xbstream_unpack "/backup/mysql/3306/mysql-testdb001-3306-2014-06-06.xbstream" 3306 ""
      "local_file" (some 2097152) "test-bucket" "/var/lib/mysql/3306" =
      .ok ("/usr/bin/pv -peafbt /backup/mysql/3306/mysql-testdb001-3306-2014-06-06.xbstream | /usr/bin/pv -peafbt -s 2097152 | /usr/bin/xbstream -x -C /var/lib/mysql/3306") ∧
    pyIn " -s 2097152 " "/usr/bin/pv -peafbt /backup/mysql/3306/mysql-testdb001-3306-2014-06-06.xbstream | /usr/bin/pv -peafbt -s 2097152 | /usr/bin/xbstream -x -C /var/lib/mysql/3306" = true := by
  decide

/-- C8 (amended): a failed ledger connection makes start return no job id
with the ledger untouched and nothing raised; an update with no job id
leaves every row unchanged and raises nothing provided at least one
recognized field is supplied (the WHERE clause compares id against NULL,
which no row satisfies); and a failed connection in update is likewise
swallowed whatever the job id. -/
theorem claim_C8_amended (ledger : List LedgerRow) (p : StartParams) (u : UpdateParams)
    (now : String) (row_id : Option Nat) (execOk connOk : Bool)
    (hfields : updates_fields u ≠ []) :
    start_restore_log false execOk ledger p now = (none, ledger) ∧
    update_restore_log connOk ledger none u now = .ok ledger ∧
    update_restore_log false ledger row_id u now = .ok ledger := by
  refine ⟨rfl, ?_, rfl⟩
  cases connOk
  · rfl
  · have hne : (updates_fields u).isEmpty = false := by
      cases h : updates_fields u
      · exact absurd h hfields
      · rfl
    simp only [update_restore_log, Bool.not_true, Bool.false_eq_true, if_false, hne,
      rowMatches, List.map_id]
    simp

theorem claim_C8_amended_witness :
    start_restore_log false true [] ⟨"s3://b/f.xbstream", "s3", "f.xbstream", "db1:3306",
        "2014-06-06", 3306, some "REQ", some "SKIP"⟩ "2014-06-06 00:00:00" = (none, []) ∧
    update_restore_log true [] none ⟨true, some "OK", none, none, none⟩ "2014-06-06 01:00:00" =
      .ok [] ∧
    update_restore_log false [] (some 7) ⟨true, some "OK", none, none, none⟩ "2014-06-06 01:00:00" =
      .ok [] :=
  claim_C8_amended [] ⟨"s3://b/f.xbstream", "s3", "f.xbstream", "db1:3306",
      "2014-06-06", 3306, some "REQ", some "SKIP"⟩ ⟨true, some "OK", none, none, none⟩
    "2014-06-06 01:00:00" (some 7) true true (by decide)

/-- C10: when keep_newest is at least the number of matching files,
to_delete is zero, the deletion loop runs over an empty schedule, and the
directory is returned unchanged with no error. -/
theorem claim_C10_keep_newest_ge (backup_path : String) (dir : List (String × Nat))
    (extension : List String) (keep_newest : Nat)
    (h : (matchedEntries dir extension).length ≤ keep_newest) :
    remove_backups backup_path dir extension keep_newest = some dir := by
  have hlen : ((matchedEntries dir extension).map
      (fun e => (e.2, pjoin backup_path e.1))).length - keep_newest = 0 := by
    rw [List.length_map]
    omega
  simp only [remove_backups, hlen, List.take_zero, delete_loop]

theorem claim_C10_keep_newest_ge_witness :
    remove_backups "/backup/mysql/3306"
      [("mysql-testdb001-3306-2014-06-06.xbstream", 5), ("notes.txt", 9)] [".xbstream"] 1 =
      some [("mysql-testdb001-3306-2014-06-06.xbstream", 5), ("notes.txt", 9)] :=
  claim_C10_keep_newest_ge "/backup/mysql/3306"
    [("mysql-testdb001-3306-2014-06-06.xbstream", 5), ("notes.txt", 9)] [".xbstream"] 1
    (by decide)

/-! ## Lemmas about the get_s3_backup selection loop -/

/-- With a some accumulator the loop always returns some key. -/
theorem s3_latest_acc_some : ∀ (items : List S3Key) (a : S3Key),
    ∃ k, s3_latest items (some a) = some k := by
  intro items
  induction items with
  | nil => exact fun a => ⟨a, rfl⟩
  | cons e rest ih =>
    intro a
    by_cases hp : s3_pass e = true
    · by_cases hlt : pyStrLt a.last_modified e.last_modified = true
      · simpa [s3_latest, hp, hlt] using ih e
      · simpa [s3_latest, hp, hlt] using ih a
    · simpa [s3_latest, hp] using ih a

/-- Any key the loop returns was either a passing member of the input or
already the accumulator. -/
theorem s3_latest_mem_pass : ∀ (items : List S3Key) (acc : Option S3Key) (k : S3Key),
    s3_latest items acc = some k →
    (k ∈ items ∧ s3_pass k = true) ∨ acc = some k := by
  intro items
  induction items with
  | nil => exact fun acc k h => Or.inr h
  | cons e rest ih =>
    intro acc k h
    by_cases hp : s3_pass e = true
    · cases acc with
      | none =>
        simp only [s3_latest, hp, if_true] at h
        rcases ih _ _ h with ⟨hm, hps⟩ | heq
        · exact Or.inl ⟨List.mem_cons_of_mem _ hm, hps⟩
        · injection heq with heq
          subst heq
          exact Or.inl ⟨List.mem_cons_self _ _, hp⟩
      | some lb =>
        by_cases hlt : pyStrLt lb.last_modified e.last_modified = true
        · simp only [s3_latest, hp, hlt, if_true] at h
          rcases ih _ _ h with ⟨hm, hps⟩ | heq
          · exact Or.inl ⟨List.mem_cons_of_mem _ hm, hps⟩
          · injection heq with heq
            subst heq
            exact Or.inl ⟨List.mem_cons_self _ _, hp⟩
        · simp only [s3_latest, hp, hlt, if_true, if_false] at h
          rcases ih _ _ h with ⟨hm, hps⟩ | heq
          · exact Or.inl ⟨List.mem_cons_of_mem _ hm, hps⟩
          · exact Or.inr heq
    · simp only [s3_latest, hp] at h
      rcases ih _ _ h with ⟨hm, hps⟩ | heq
      · exact Or.inl ⟨List.mem_cons_of_mem _ hm, hps⟩
      · exact Or.inr heq

/-- The returned key is at least as recent as the accumulator. -/
theorem s3_latest_acc_le : ∀ (items : List S3Key) (a k : S3Key),
    s3_latest items (some a) = some k →
    pyStrLt k.last_modified a.last_modified = false := by
  intro items
  induction items with
  | nil =>
    intro a k h
    injection h with h
    subst h
    exact pyStrLt_irrefl _
  | cons e rest ih =>
    intro a k h
    by_cases hp : s3_pass e = true
    · by_cases hlt : pyStrLt a.last_modified e.last_modified = true
      · simp only [s3_latest, hp, hlt, if_true] at h
        have ihe := ih e k h
        cases hc : pyStrLt k.last_modified a.last_modified
        · rfl
        · exact absurd (pyStrLt_trans hc hlt) (by simp [ihe])
      · simp only [s3_latest, hp, hlt, if_true, if_false] at h
        exact ih a k h
    · simp only [s3_latest, hp] at h
      exact ih a k h

/-- The returned key is at least as recent as every passing input key. -/
theorem s3_latest_ub : ∀ (items : List S3Key) (acc : Option S3Key) (k : S3Key),
    s3_latest items acc = some k →
    ∀ k', k' ∈ items → s3_pass k' = true →
      pyStrLt k.last_modified k'.last_modified = false := by
  intro items
  induction items with
  | nil => exact fun acc k _ k' hk' => absurd hk' (List.not_mem_nil _)
  | cons e rest ih =>
    intro acc k h k' hk' hp'
    rcases List.mem_cons.mp hk' with rfl | hmem
    · by_cases hp : s3_pass k' = true
      · cases acc with
        | none =>
          simp only [s3_latest, hp, if_true] at h
          exact s3_latest_acc_le _ _ _ h
        | some lb =>
          by_cases hlt : pyStrLt lb.last_modified k'.last_modified = true
          · simp only [s3_latest, hp, hlt, if_true] at h
            exact s3_latest_acc_le _ _ _ h
          · rw [Bool.not_eq_true] at hlt
            simp only [s3_latest, hp, hlt, Bool.false_eq_true, if_true, if_false] at h
            exact pyStrLt_negtrans hlt (s3_latest_acc_le _ _ _ h)
      · exact absurd hp' hp
    · by_cases hp : s3_pass e = true
      · cases acc with
        | none =>
          simp only [s3_latest, hp, if_true] at h
          exact ih _ _ h k' hmem hp'
        | some lb =>
          by_cases hlt : pyStrLt lb.last_modified e.last_modified = true
          · simp only [s3_latest, hp, hlt, if_true] at h
            exact ih _ _ h k' hmem hp'
          · simp only [s3_latest, hp, hlt, if_true, if_false] at h
            exact ih _ _ h k' hmem hp'
      · simp only [s3_latest, hp] at h
        exact ih _ _ h k' hmem hp'

/-- When every key fails the filter, the loop finds nothing. -/
theorem s3_latest_none_of_all_fail : ∀ (items : List S3Key),
    (∀ k, k ∈ items → s3_pass k = false) → s3_latest items none = none := by
  intro items
  induction items with
  | nil => exact fun _ => rfl
  | cons e rest ih =>
    intro hall
    have hp : s3_pass e = false := hall e (List.mem_cons_self _ _)
    simp only [s3_latest, hp]
    exact ih (fun k hk => hall k (List.mem_cons_of_mem _ hk))

/-- When some key passes the filter, the loop returns a key. -/
theorem s3_latest_isSome : ∀ (items : List S3Key) (acc : Option S3Key) (k₀ : S3Key),
    k₀ ∈ items → s3_pass k₀ = true → ∃ k, s3_latest items acc = some k := by
  intro items
  induction items with
  | nil => exact fun acc k₀ hk => absurd hk (List.not_mem_nil _)
  | cons e rest ih =>
    intro acc k₀ hk₀ hp₀
    rcases List.mem_cons.mp hk₀ with rfl | hmem
    · cases acc with
      | none =>
        simp only [s3_latest, hp₀, if_true]
        exact s3_latest_acc_some rest k₀
      | some lb =>
        by_cases hlt : pyStrLt lb.last_modified k₀.last_modified = true
        · simp only [s3_latest, hp₀, hlt, if_true]
          exact s3_latest_acc_some rest k₀
        · simp only [s3_latest, hp₀, hlt, if_true, if_false]
          exact s3_latest_acc_some rest lb
    · by_cases hp : s3_pass e = true
      · cases acc with
        | none =>
          simp only [s3_latest, hp, if_true]
          exact s3_latest_acc_some rest e
        | some lb =>
          by_cases hlt : pyStrLt lb.last_modified e.last_modified = true
          · simp only [s3_latest, hp, hlt, if_true]
            exact s3_latest_acc_some rest e
          · simp only [s3_latest, hp, hlt, if_true, if_false]
            exact s3_latest_acc_some rest lb
      · simp only [s3_latest, hp]
        exact ih acc k₀ hmem hp₀

/-- C6 (amended): whenever get_s3_backup succeeds it returns the name and
size of a listed key that contains the artifact suffix somewhere in its
name (a containment test, not an endswith test) and whose size is
strictly above the minimum, and that is at least as recently modified as
every other such key (the earliest-listed key wins ties); and whenever
some listed key passes that filter, get_s3_backup does succeed. -/
theorem claim_C6_amended (hostname : String) (port : Nat) (items : List S3Key)
    (name : String) (size : Nat) (k₀ : S3Key) :
    (get_s3_backup hostname port items = .ok (name, size) →
      ∃ k, k ∈ items ∧ k.name = name ∧ k.size = size ∧
        pyIn XBSTREAM_SUFFIX k.name = true ∧ MINIMUM_VALID_BACKUP_SIZE_BYTES < k.size ∧
        ∀ k', k' ∈ items → s3_pass k' = true →
          pyStrLt k.last_modified k'.last_modified = false) ∧
    (k₀ ∈ items → s3_pass k₀ = true →
      ∃ res, get_s3_backup hostname port items = .ok res) := by
  constructor
  · intro hok
    unfold get_s3_backup at hok
    cases hres : s3_latest items none with
    | none =>
      rw [hres] at hok
      exact absurd hok (by simp)
    | some k =>
      rw [hres] at hok
      simp only [Except.ok.injEq, Prod.mk.injEq] at hok
      rcases s3_latest_mem_pass items none k hres with ⟨hm, hp⟩ | habs
      · have hp' := hp
        simp only [s3_pass, Bool.and_eq_true, decide_eq_true_eq, gt_iff_lt] at hp'
        exact ⟨k, hm, hok.1, hok.2, hp'.1, hp'.2, s3_latest_ub items none k hres⟩
      · exact absurd habs (by simp)
  · intro hmem hp
    obtain ⟨k, hk⟩ := s3_latest_isSome items none k₀ hmem hp
    refine ⟨(k.name, k.size), ?_⟩
    unfold get_s3_backup
    rw [hk]

theorem claim_C6_amended_witness :
    (∃ k, k ∈ [S3Key.mk "mysql-testdb001-3306-2014-06-05.xbstream" 2097152 "2014-06-05T00:00:00.000Z",
               S3Key.mk "mysql-testdb001-3306-2014-06-06.xbstream" 3145728 "2014-06-06T00:00:00.000Z"] ∧
      k.name = "mysql-testdb001-3306-2014-06-06.xbstream" ∧ k.size = 3145728 ∧
      pyIn XBSTREAM_SUFFIX k.name = true ∧ MINIMUM_VALID_BACKUP_SIZE_BYTES < k.size ∧
      ∀ k', k' ∈ [S3Key.mk "mysql-testdb001-3306-2014-06-05.xbstream" 2097152 "2014-06-05T00:00:00.000Z",
                  S3Key.mk "mysql-testdb001-3306-2014-06-06.xbstream" 3145728 "2014-06-06T00:00:00.000Z"] →
        s3_pass k' = true → pyStrLt k.last_modified k'.last_modified = false) ∧
    (∃ res, get_s3_backup "testdb001" 3306
      [S3Key.mk "mysql-testdb001-3306-2014-06-05.xbstream" 2097152 "2014-06-05T00:00:00.000Z",
       S3Key.mk "mysql-testdb001-3306-2014-06-06.xbstream" 3145728 "2014-06-06T00:00:00.000Z"] = .ok res) :=
  ⟨(claim_C6_amended "testdb001" 3306
      [S3Key.mk "mysql-testdb001-3306-2014-06-05.xbstream" 2097152 "2014-06-05T00:00:00.000Z",
       S3Key.mk "mysql-testdb001-3306-2014-06-06.xbstream" 3145728 "2014-06-06T00:00:00.000Z"]
      "mysql-testdb001-3306-2014-06-06.xbstream" 3145728
      (S3Key.mk "mysql-testdb001-3306-2014-06-05.xbstream" 2097152 "2014-06-05T00:00:00.000Z")).1
      (by decide),
   (claim_C6_amended "testdb001" 3306
      [S3Key.mk "mysql-testdb001-3306-2014-06-05.xbstream" 2097152 "2014-06-05T00:00:00.000Z",
       S3Key.mk "mysql-testdb001-3306-2014-06-06.xbstream" 3145728 "2014-06-06T00:00:00.000Z"]
      "mysql-testdb001-3306-2014-06-06.xbstream" 3145728
      (S3Key.mk "mysql-testdb001-3306-2014-06-05.xbstream" 2097152 "2014-06-05T00:00:00.000Z")).2
      (by decide) (by decide)⟩

/-- C7 (amended): both no-candidate situations surface as immediate
errors, but not as two distinguishable kinds.  The object-store variant
raises one identical unable-to-find exception whether the listing is
empty or only holds undersized keys; the remote variant raises its
no-backup message when the listing is empty, and its too-small branch is
unreachable (any listing with the size and path columns present is
returned whatever the size), so no caller can rely on a TooSmallError. -/
theorem claim_C7_amended (hostname : String) (port : Nat) (items : List S3Key)
    (out err sz fn : String) :
    ((∀ k, k ∈ items → s3_pass k = false) →
      get_s3_backup hostname port items =
        .error (.exception ("Unable to find a valid backup for " ++ hostname ++ ":" ++
          toString port))) ∧
    get_remote_backup hostname port "" err =
      .error (.exception ("No backup found for " ++ hostname ++ " in " ++
        pjoin TARGET_DIR (toString port) ++ ".\nError: " ++ err)) ∧
    (out ≠ "" → (pySplitWs out).get? 4 = some sz → (pySplitWs out).get? 8 = some fn →
      get_remote_backup hostname port out err = .ok (fn, sz)) := by
  refine ⟨?_, rfl, ?_⟩
  · intro hall
    unfold get_s3_backup
    rw [s3_latest_none_of_all_fail items hall]
  · intro hout h4 h8
    simp only [get_remote_backup, if_neg hout, h4, h8, py2_str_lt_int, Bool.false_eq_true,
      if_false]

theorem claim_C7_amended_witness :
    get_s3_backup "testdb001" 3306
      [S3Key.mk "mysql-testdb001-3306-2014-06-06.xbstream" 512 "2014-06-07T01:02:03.000Z"] =
      .error (.exception ("Unable to find a valid backup for testdb001:3306")) ∧
    get_remote_backup "testdb001" 3306 "" "ls: cannot access" =
      .error (.exception ("No backup found for testdb001 in " ++
        pjoin TARGET_DIR (toString 3306) ++ ".\nError: ls: cannot access")) ∧
    get_remote_backup "testdb001" 3306
      "-rw-r--r-- 1 dbutil dbutil 512 Jun  6 2014 /backup/mysql/3306/mysql-testdb001-3306-2014-06-06.xbstream"
      "" = .ok ("/backup/mysql/3306/mysql-testdb001-3306-2014-06-06.xbstream", "512") := by
  have h := claim_C7_amended "testdb001" 3306
    [S3Key.mk "mysql-testdb001-3306-2014-06-06.xbstream" 512 "2014-06-07T01:02:03.000Z"]
    "-rw-r--r-- 1 dbutil dbutil 512 Jun  6 2014 /backup/mysql/3306/mysql-testdb001-3306-2014-06-06.xbstream"
    "ls: cannot access" "512" "/backup/mysql/3306/mysql-testdb001-3306-2014-06-06.xbstream"
  refine ⟨h.1 (by decide), ?_, h.2.2 (by decide) (by decide) (by decide)⟩
  have h2 := claim_C7_amended "testdb001" 3306
    [S3Key.mk "mysql-testdb001-3306-2014-06-06.xbstream" 512 "2014-06-07T01:02:03.000Z"]
    "" "ls: cannot access" "512" "/backup/mysql/3306/mysql-testdb001-3306-2014-06-06.xbstream"
  exact h2.2.1

/-! ## Facts about the greedy scan and the two regex attempts -/

theorem scanGreedy_none {α : Type} (att : List Char → Option α) :
    ∀ t : List Char, (∀ u, u <:+ t → att u = none) → scanGreedy att t = none := by
  intro t
  induction t with
  | nil => exact fun h => h [] (List.suffix_refl _)
  | cons c rest ih =>
    intro h
    have hrest : scanGreedy att rest = none :=
      ih (fun u hu => h u (hu.trans (List.suffix_cons c rest)))
    simp only [scanGreedy, hrest]
    exact h _ (List.suffix_refl _)

theorem scanGreedy_some {α : Type} (att : List Char → Option α) :
    ∀ (t : List Char) (r : α), att t = some r →
    (∀ u, u <:+ t → u ≠ t → att u = none) → scanGreedy att t = some r := by
  intro t
  induction t with
  | nil =>
    intro r h _
    simpa [scanGreedy] using h
  | cons c rest ih =>
    intro r h hfail
    have hrest : scanGreedy att rest = none := by
      apply scanGreedy_none
      intro u hu
      apply hfail u (hu.trans (List.suffix_cons c rest))
      intro heq
      subst heq
      have h2 := hu.length_le
      simp only [List.length_cons] at h2
      omega
    simp only [scanGreedy, hrest]
    exact h

theorem scanGreedy_append {α : Type} (att : List Char → Option α) :
    ∀ (pre t : List Char) (r : α), att t = some r →
    (∀ u, u <:+ t → u ≠ t → att u = none) →
    scanGreedy att (pre ++ t) = some r := by
  intro pre
  induction pre with
  | nil =>
    intro t r h hfail
    simpa using scanGreedy_some att t r h hfail
  | cons c pre ih =>
    intro t r h hfail
    have hrec : scanGreedy att (pre ++ t) = some r := ih t r h hfail
    simp only [List.cons_append, scanGreedy, List.append_eq, hrec]

/-- A suffix of a ++ b is a suffix of b or a nonempty suffix of a glued to
the whole of b. -/
theorem suffix_split {u : List Char} : ∀ {a b : List Char}, u <:+ a ++ b →
    u <:+ b ∨ ∃ a', a' <:+ a ∧ a' ≠ [] ∧ u = a' ++ b := by
  intro a
  induction a with
  | nil =>
    intro b h
    exact Or.inl (by simpa using h)
  | cons c a ih =>
    intro b h
    rw [List.cons_append, List.suffix_cons_iff] at h
    rcases h with rfl | h
    · exact Or.inr ⟨c :: a, List.suffix_refl _, by simp, rfl⟩
    · rcases ih h with h' | ⟨a', ha', hne, rfl⟩
      · exact Or.inl h'
      · exact Or.inr ⟨a', ha'.trans (List.suffix_cons c a), hne, rfl⟩

/-- The head of a proper suffix is an element of the tail. -/
theorem head_mem_tail_of_proper_suffix {x : Char} {xs l : List Char}
    (hu : (x :: xs) <:+ l) (hne : x :: xs ≠ l) : x ∈ l.tail := by
  obtain ⟨t, ht⟩ := hu
  cases t with
  | nil => exact absurd (by simpa using ht) hne
  | cons c t' =>
    rw [← ht]
    simp

theorem isPrefixOf_self_append : ∀ (l t : List Char), l.isPrefixOf (l ++ t) = true := by
  intro l t
  induction l with
  | nil => simp [List.isPrefixOf]
  | cons c l ih => simp [List.isPrefixOf, ih]

theorem isPrefixOf_false_of_head_ne {x y : Char} (xs ys : List Char) (h : x ≠ y) :
    (x :: xs).isPrefixOf (y :: ys) = false := by
  simp [List.isPrefixOf, beq_eq_false_iff_ne.mpr h]

/-- Peel one character off the front of a suffix-closed failure fact. -/
theorem suffix_none_cons {α : Type} (att : List Char → Option α) {x : Char} {xs : List Char}
    (h1 : att (x :: xs) = none) (h2 : ∀ u, u <:+ xs → att u = none) :
    ∀ u, u <:+ x :: xs → att u = none := by
  intro u hu
  rcases List.suffix_cons_iff.mp hu with rfl | hu'
  · exact h1
  · exact h2 u hu'

/-- Every suffix of an all-digit list fails an attempt that rejects the
empty list and any list not headed by the capital letter M. -/
theorem att_digits_none {α : Type} (att : List Char → Option α)
    (hnil : att [] = none)
    (hhd : ∀ (x : Char) (xs : List Char), x ≠ 'M' → att (x :: xs) = none) :
    ∀ (ds : List Char), (∀ c ∈ ds, c.isDigit = true) → ∀ u, u <:+ ds → att u = none := by
  intro ds
  induction ds with
  | nil =>
    intro _ u hu
    rw [List.suffix_nil.mp hu]
    exact hnil
  | cons d ds ih =>
    intro h u hu
    rcases List.suffix_cons_iff.mp hu with rfl | hu'
    · refine hhd d ds ?_
      intro hM
      have hd := h d (by simp)
      rw [hM] at hd
      exact absurd hd (by decide)
    · exact ih (fun c hc => h c (by simp [hc])) u hu'

theorem isFileClassChar_ne {c : Char} (h : isFileClassChar c = true) (d : Char)
    (hd : isFileClassChar d = false) : c ≠ d := by
  intro he
  subst he
  rw [h] at hd
  cases hd

theorem isDigit_ne {c : Char} (h : c.isDigit = true) (d : Char)
    (hd : d.isDigit = false) : c ≠ d := by
  intro he
  subst he
  rw [h] at hd
  cases hd

theorem isDigit_not_ws {c : Char} (h : c.isDigit = true) : c.isWhitespace = false := by
  cases hw : c.isWhitespace
  · rfl
  · exfalso
    simp only [Char.isWhitespace, Bool.or_eq_true, decide_eq_true_eq] at hw
    rcases hw with ((rfl | rfl) | rfl) | rfl <;> exact absurd h (by decide)

theorem matchFileAt_none_of_head_ne {x : Char} (xs : List Char) (hx : x ≠ 'M') :
    matchFileAt (x :: xs) = none := by
  have hL : LIT_FILE = 'M' :: ("ASTER_LOG_FILE=".data ++ [squote]) := by decide
  have hpre : LIT_FILE.isPrefixOf (x :: xs) = false := by
    rw [hL]
    exact isPrefixOf_false_of_head_ne _ _ (Ne.symm hx)
  simp [matchFileAt, hpre]

theorem matchPosAt_none_of_head_ne {x : Char} (xs : List Char) (hx : x ≠ 'M') :
    matchPosAt (x :: xs) = none := by
  have hL : LIT_POS = 'M' :: "ASTER_LOG_POS=".data := by decide
  have hpre : LIT_POS.isPrefixOf (x :: xs) = false := by
    rw [hL]
    exact isPrefixOf_false_of_head_ne _ _ (Ne.symm hx)
  simp [matchPosAt, hpre]

/-- No suffix of the canonical statement tail ", MASTER_LOG_POS=" ++ digits
can match the file pattern: the embedded occurrence of MASTER_LOG_ is
followed by POS, not FILE. -/
theorem matchFileAt_tail_none (ds : List Char) (hds : ∀ c ∈ ds, c.isDigit = true) :
    ∀ u, u <:+ (", MASTER_LOG_POS=".data ++ ds) → matchFileAt u = none := by
  have h0 : ∀ u, u <:+ ds → matchFileAt u = none :=
    att_digits_none matchFileAt rfl (fun x xs hx => matchFileAt_none_of_head_ne xs hx) ds hds
  have h1 : ∀ u, u <:+ ("=".data ++ ds) → matchFileAt u = none :=
    suffix_none_cons _ (matchFileAt_none_of_head_ne _ (by decide)) h0
  have h2 : ∀ u, u <:+ ("S=".data ++ ds) → matchFileAt u = none :=
    suffix_none_cons _ (matchFileAt_none_of_head_ne _ (by decide)) h1
  have h3 : ∀ u, u <:+ ("OS=".data ++ ds) → matchFileAt u = none :=
    suffix_none_cons _ (matchFileAt_none_of_head_ne _ (by decide)) h2
  have h4 : ∀ u, u <:+ ("POS=".data ++ ds) → matchFileAt u = none :=
    suffix_none_cons _ (matchFileAt_none_of_head_ne _ (by decide)) h3
  have h5 : ∀ u, u <:+ ("_POS=".data ++ ds) → matchFileAt u = none :=
    suffix_none_cons _ (matchFileAt_none_of_head_ne _ (by decide)) h4
  have h6 : ∀ u, u <:+ ("G_POS=".data ++ ds) → matchFileAt u = none :=
    suffix_none_cons _ (matchFileAt_none_of_head_ne _ (by decide)) h5
  have h7 : ∀ u, u <:+ ("OG_POS=".data ++ ds) → matchFileAt u = none :=
    suffix_none_cons _ (matchFileAt_none_of_head_ne _ (by decide)) h6
  have h8 : ∀ u, u <:+ ("LOG_POS=".data ++ ds) → matchFileAt u = none :=
    suffix_none_cons _ (matchFileAt_none_of_head_ne _ (by decide)) h7
  have h9 : ∀ u, u <:+ ("_LOG_POS=".data ++ ds) → matchFileAt u = none :=
    suffix_none_cons _ (matchFileAt_none_of_head_ne _ (by decide)) h8
  have h10 : ∀ u, u <:+ ("R_LOG_POS=".data ++ ds) → matchFileAt u = none :=
    suffix_none_cons _ (matchFileAt_none_of_head_ne _ (by decide)) h9
  have h11 : ∀ u, u <:+ ("ER_LOG_POS=".data ++ ds) → matchFileAt u = none :=
    suffix_none_cons _ (matchFileAt_none_of_head_ne _ (by decide)) h10
  have h12 : ∀ u, u <:+ ("TER_LOG_POS=".data ++ ds) → matchFileAt u = none :=
    suffix_none_cons _ (matchFileAt_none_of_head_ne _ (by decide)) h11
  have h13 : ∀ u, u <:+ ("STER_LOG_POS=".data ++ ds) → matchFileAt u = none :=
    suffix_none_cons _ (matchFileAt_none_of_head_ne _ (by decide)) h12
  have h14 : ∀ u, u <:+ ("ASTER_LOG_POS=".data ++ ds) → matchFileAt u = none :=
    suffix_none_cons _ (matchFileAt_none_of_head_ne _ (by decide)) h13
  have hM : matchFileAt ("MASTER_LOG_POS=".data ++ ds) = none := rfl
  have h15 : ∀ u, u <:+ ("MASTER_LOG_POS=".data ++ ds) → matchFileAt u = none :=
    suffix_none_cons _ hM h14
  have h16 : ∀ u, u <:+ (" MASTER_LOG_POS=".data ++ ds) → matchFileAt u = none :=
    suffix_none_cons _ (matchFileAt_none_of_head_ne _ (by decide)) h15
  exact suffix_none_cons _ (matchFileAt_none_of_head_ne _ (by decide)) h16

/-- Every proper suffix of MASTER_LOG_FILE='f', MASTER_LOG_POS=digits
fails the file attempt, so the greedy scan settles on the full occurrence. -/
theorem matchFileAt_proper_suffix_none (f ds : List Char)
    (hf : ∀ c ∈ f, isFileClassChar c = true) (hds : ∀ c ∈ ds, c.isDigit = true) :
    ∀ u, u <:+ (LIT_FILE ++ (f ++ squote :: (", MASTER_LOG_POS=".data ++ ds))) →
      u ≠ LIT_FILE ++ (f ++ squote :: (", MASTER_LOG_POS=".data ++ ds)) →
      matchFileAt u = none := by
  intro u hu hne
  rcases suffix_split hu with hu' | ⟨a', ha', hane, rfl⟩
  · rcases suffix_split hu' with hu'' | ⟨f', hf', hfne, rfl⟩
    · rcases List.suffix_cons_iff.mp hu'' with rfl | hu'''
      · exact matchFileAt_none_of_head_ne _ (by decide)
      · exact matchFileAt_tail_none ds hds u hu'''
    · cases f' with
      | nil => exact absurd rfl hfne
      | cons x xs =>
        have hx : x ∈ f := hf'.subset (by simp)
        exact matchFileAt_none_of_head_ne _
          (isFileClassChar_ne (hf x hx) 'M' (by decide))
  · by_cases haeq : a' = LIT_FILE
    · subst haeq
      exact absurd rfl hne
    · cases a' with
      | nil => exact absurd rfl hane
      | cons x xs =>
        have hx : x ∈ LIT_FILE.tail :=
          head_mem_tail_of_proper_suffix ha' (fun h => haeq h)
        refine matchFileAt_none_of_head_ne _ ?_
        intro h
        subst h
        exact absurd hx (by decide)

/-- Every proper suffix of MASTER_LOG_POS=digits fails the position
attempt. -/
theorem matchPosAt_proper_suffix_none (ds : List Char)
    (hds : ∀ c ∈ ds, c.isDigit = true) :
    ∀ u, u <:+ (LIT_POS ++ ds) → u ≠ LIT_POS ++ ds → matchPosAt u = none := by
  intro u hu hne
  rcases suffix_split hu with hu' | ⟨a', ha', hane, rfl⟩
  · exact att_digits_none matchPosAt rfl
      (fun x xs hx => matchPosAt_none_of_head_ne xs hx) ds hds u hu'
  · by_cases haeq : a' = LIT_POS
    · subst haeq
      exact absurd rfl hne
    · cases a' with
      | nil => exact absurd rfl hane
      | cons x xs =>
        have hx : x ∈ LIT_POS.tail :=
          head_mem_tail_of_proper_suffix ha' (fun h => haeq h)
        refine matchPosAt_none_of_head_ne _ ?_
        intro h
        subst h
        exact absurd hx (by decide)

/-- takeWhile collects exactly the leading block when everything in it
passes and the next character fails. -/
theorem takeWhile_append_stop {p : Char → Bool} (x : Char) (hx : p x = false) :
    ∀ (l t : List Char), (∀ c ∈ l, p c = true) → (l ++ x :: t).takeWhile p = l := by
  intro l
  induction l with
  | nil =>
    intro t _
    simp [List.takeWhile_cons, hx]
  | cons c l ih =>
    intro t hall
    have hc : p c = true := hall c (by simp)
    simp [List.takeWhile_cons, hc, ih t (fun d hd => hall d (by simp [hd]))]

/-- The file attempt at the occurrence captures exactly the embedded name. -/
theorem matchFileAt_occurrence (f T : List Char)
    (hf : ∀ c ∈ f, isFileClassChar c = true) (hfne : f ≠ []) :
    matchFileAt (LIT_FILE ++ (f ++ squote :: T)) = some f := by
  have hemp : f.isEmpty = false := by
    cases f
    · exact absurd rfl hfne
    · rfl
  have htake : (f ++ squote :: T).takeWhile isFileClassChar = f :=
    takeWhile_append_stop squote (by decide) f T hf
  simp [matchFileAt, isPrefixOf_self_append, List.drop_left, htake, hemp]

/-- The position attempt at the occurrence captures exactly the digits. -/
theorem matchPosAt_occurrence (ds : List Char)
    (hds : ∀ c ∈ ds, c.isDigit = true) (hdne : ds ≠ []) :
    matchPosAt (LIT_POS ++ ds) = some ds := by
  have hemp : ds.isEmpty = false := by
    cases ds
    · exact absurd rfl hdne
    · rfl
  have htake : ds.takeWhile Char.isDigit = ds := List.takeWhile_eq_self_iff.mpr hds
  simp [matchPosAt, isPrefixOf_self_append, List.drop_left, htake, hemp]

theorem slaveData_firstLine (f ds : List Char)
    (hf : ∀ c ∈ f, isFileClassChar c = true) (hds : ∀ c ∈ ds, c.isDigit = true) :
    firstLine (slaveData f ds) = ("CHANGE MASTER TO ".data ++
      (LIT_FILE ++ (f ++ squote :: (", MASTER_LOG_POS=".data ++ ds)))) := by
  unfold firstLine slaveData
  refine List.takeWhile_eq_self_iff.mpr ?_
  intro c hc
  rw [decide_eq_true_eq]
  have hPRE : ∀ x ∈ "CHANGE MASTER TO ".data, x ≠ '\n' := by decide
  have hLIT : ∀ x ∈ LIT_FILE, x ≠ '\n' := by decide
  have hCOMMA : ∀ x ∈ ", MASTER_LOG_POS=".data, x ≠ '\n' := by decide
  rcases List.mem_append.mp hc with h | hc1
  · exact hPRE c h
  rcases List.mem_append.mp hc1 with h | hc2
  · exact hLIT c h
  rcases List.mem_append.mp hc2 with h | hc3
  · exact isFileClassChar_ne (hf c h) _ (by decide)
  rcases List.mem_cons.mp hc3 with rfl | hc4
  · decide
  rcases List.mem_append.mp hc4 with h | h
  · exact hCOMMA c h
  · exact isDigit_ne (hds c h) _ (by decide)

theorem re_match_slave_file_canonical (f ds : List Char)
    (hf : ∀ c ∈ f, isFileClassChar c = true) (hfne : f ≠ [])
    (hds : ∀ c ∈ ds, c.isDigit = true) :
    re_match_slave_file (slaveData f ds) = some f := by
  unfold re_match_slave_file
  rw [slaveData_firstLine f ds hf hds]
  exact scanGreedy_append matchFileAt _ _ f
    (matchFileAt_occurrence f _ hf hfne)
    (matchFileAt_proper_suffix_none f ds hf hds)

theorem re_match_slave_pos_canonical (f ds : List Char)
    (hf : ∀ c ∈ f, isFileClassChar c = true)
    (hds : ∀ c ∈ ds, c.isDigit = true) (hdne : ds ≠ []) :
    re_match_slave_pos (slaveData f ds) = some ds := by
  unfold re_match_slave_pos
  rw [slaveData_firstLine f ds hf hds]
  have hsplit : ", MASTER_LOG_POS=".data = ", ".data ++ LIT_POS := by decide
  have hassoc : "CHANGE MASTER TO ".data ++
      (LIT_FILE ++ (f ++ squote :: (", MASTER_LOG_POS=".data ++ ds))) =
      ("CHANGE MASTER TO ".data ++ (LIT_FILE ++ (f ++ squote :: ", ".data))) ++
        (LIT_POS ++ ds) := by
    rw [hsplit]
    simp [List.append_assoc, List.cons_append]
  rw [hassoc]
  exact scanGreedy_append matchPosAt _ _ ds
    (matchPosAt_occurrence ds hds hdne)
    (matchPosAt_proper_suffix_none ds hds)

theorem parse_slave_canonical (datadir : String) (f ds : List Char)
    (hf : ∀ c ∈ f, isFileClassChar c = true) (hfne : f ≠ [])
    (hds : ∀ c ∈ ds, c.isDigit = true) (hdne : ds ≠ []) :
    parse_xtrabackup_slave_info datadir (slaveData f ds) =
      .ok (String.mk f, (digitsVal ds : Int)) := by
  unfold parse_xtrabackup_slave_info
  rw [re_match_slave_file_canonical f ds hf hfne hds,
    re_match_slave_pos_canonical f ds hf hds hdne]

theorem dropWhile_eq_self_of (p : Char → Bool) (l : List Char)
    (h : ∀ c ∈ l, p c = false) : l.dropWhile p = l := by
  cases l with
  | nil => rfl
  | cons c cs => simp [List.dropWhile_cons, h c (by simp)]

theorem stripChars_all_non_ws (l : List Char) (h : ∀ c ∈ l, c.isWhitespace = false) :
    stripChars l = l := by
  unfold stripChars
  rw [dropWhile_eq_self_of _ _ h,
    dropWhile_eq_self_of _ _ (fun c hc => h c (List.mem_reverse.mp hc)),
    List.reverse_reverse]

/-- Stripping a binlog-info line removes exactly the trailing newline. -/
theorem stripChars_binlog (g es : List Char) (hg1 : g ≠ [])
    (hg2 : ∀ c ∈ g, c.isWhitespace = false)
    (hes1 : es ≠ []) (hes2 : ∀ c ∈ es, c.isDigit = true) :
    stripChars (g ++ '\t' :: (es ++ ['\n'])) = g ++ '\t' :: es := by
  obtain ⟨c, cs, rfl⟩ := List.exists_cons_of_ne_nil hg1
  obtain ⟨e, et, he⟩ :=
    List.exists_cons_of_ne_nil (mt List.reverse_eq_nil_iff.mp hes1)
  have hee : e ∈ es := List.mem_reverse.mp (by rw [he]; exact List.mem_cons_self _ _)
  unfold stripChars
  have h1 : List.dropWhile Char.isWhitespace ((c :: cs) ++ '\t' :: (es ++ ['\n'])) =
      (c :: cs) ++ '\t' :: (es ++ ['\n']) := by
    rw [List.cons_append]
    simp [List.dropWhile_cons, hg2 c (by simp)]
  rw [h1]
  have h2 : ((c :: cs) ++ '\t' :: (es ++ ['\n'])).reverse =
      '\n' :: (e :: (et ++ '\t' :: (c :: cs).reverse)) := by
    simp [List.reverse_append, he, List.append_assoc]
  rw [h2]
  have h3 : List.dropWhile Char.isWhitespace
      ('\n' :: (e :: (et ++ '\t' :: (c :: cs).reverse))) =
      e :: (et ++ '\t' :: (c :: cs).reverse) := by
    simp [List.dropWhile_cons, isDigit_not_ws (hes2 e hee)]
  rw [h3]
  have he' : (e :: et).reverse = es := by rw [← he, List.reverse_reverse]
  have h4 : (e :: (et ++ '\t' :: (c :: cs).reverse)).reverse =
      (c :: cs) ++ '\t' :: es := by
    rw [← he']
    simp [List.reverse_append, List.append_assoc]
  rw [h4]

theorem splitCharsAux_no_sep (p : Char → Bool) :
    ∀ (l acc : List Char), (∀ c ∈ l, p c = false) →
    splitCharsAux p l acc = [String.mk (acc.reverse ++ l)] := by
  intro l
  induction l with
  | nil =>
    intro acc _
    simp [splitCharsAux]
  | cons c cs ih =>
    intro acc h
    simp only [splitCharsAux, h c (by simp), Bool.false_eq_true, if_false]
    rw [ih (c :: acc) (fun d hd => h d (by simp [hd]))]
    simp [List.append_assoc]

theorem splitCharsAux_sep_mid (p : Char → Bool) (hp : p '\t' = true) :
    ∀ (a acc b : List Char), (∀ c ∈ a, p c = false) →
    splitCharsAux p (a ++ '\t' :: b) acc =
      String.mk (acc.reverse ++ a) :: splitCharsAux p b [] := by
  intro a
  induction a with
  | nil =>
    intro acc b _
    simp [splitCharsAux, hp]
  | cons c cs ih =>
    intro acc b h
    rw [List.cons_append]
    simp only [splitCharsAux, h c (by simp), Bool.false_eq_true, if_false]
    rw [ih (c :: acc) b (fun d hd => h d (by simp [hd]))]
    simp [List.append_assoc]

/-- A well-formed binlog-info line (field, tab, digits, newline) parses to
the embedded pair. -/
theorem parse_binlog_canonical (datadir g : String) (es : List Char)
    (hg1 : g.data ≠ []) (hg2 : ∀ c ∈ g.data, c.isWhitespace = false)
    (hes1 : es ≠ []) (hes2 : ∀ c ∈ es, c.isDigit = true) :
    parse_xtrabackup_binlog_info datadir (g ++ "\t" ++ String.mk es ++ "\n") =
      .ok (g, (digitsVal es : Int)) := by
  have htab : ∀ c ∈ g.data, (decide (c = '\t')) = false := by
    intro c hc
    rw [decide_eq_false_iff_not]
    intro heq
    subst heq
    exact absurd (hg2 _ hc) (by decide)
  have hestab : ∀ c ∈ es, (decide (c = '\t')) = false := by
    intro c hc
    rw [decide_eq_false_iff_not]
    exact isDigit_ne (hes2 c hc) _ (by decide)
  have hdata : (g ++ "\t" ++ String.mk es ++ "\n").data = g.data ++ '\t' :: (es ++ ['\n']) := by
    have ht : ("\t" : String).data = ['\t'] := rfl
    have hn : ("\n" : String).data = ['\n'] := rfl
    simp [String.data_append, ht, hn]
  have hstr : pyStrip (g ++ "\t" ++ String.mk es ++ "\n") = String.mk (g.data ++ '\t' :: es) := by
    unfold pyStrip
    rw [hdata, stripChars_binlog g.data es hg1 hg2 hes1 hes2]
  have hsplit : pySplitTab (String.mk (g.data ++ '\t' :: es)) = [g, String.mk es] := by
    unfold pySplitTab
    rw [show (String.mk (g.data ++ '\t' :: es)).data = g.data ++ '\t' :: es from rfl]
    rw [splitCharsAux_sep_mid _ (by decide) g.data [] es htab]
    rw [splitCharsAux_no_sep _ es [] hestab]
    simp
  have hnw : ∀ c ∈ es, c.isWhitespace = false := fun c hc => isDigit_not_ws (hes2 c hc)
  have hint : pyInt (pyStrip (String.mk es)) = some (digitsVal es : Int) := by
    have hstr2 : pyStrip (String.mk es) = String.mk es := by
      unfold pyStrip
      rw [show (String.mk es).data = es from rfl, stripChars_all_non_ws es hnw]
    rw [hstr2]
    unfold pyInt
    rw [show (String.mk es).data = es from rfl, stripChars_all_non_ws es hnw]
    obtain ⟨e, est, rfl⟩ := List.exists_cons_of_ne_nil hes1
    have he1 : e ≠ '-' := isDigit_ne (hes2 e (by simp)) _ (by decide)
    have he2 : e ≠ '+' := isDigit_ne (hes2 e (by simp)) _ (by decide)
    have hall : (e :: est).all Char.isDigit = true := List.all_eq_true.mpr hes2
    simp [he1, he2, hall]
  have hgstrip : pyStrip g = g := by
    unfold pyStrip
    rw [stripChars_all_non_ws g.data hg2]
  unfold parse_xtrabackup_binlog_info
  rw [hstr]
  simp only [hsplit, hint, hgstrip]

/-- A binlog-info file whose content does not split into exactly two
tab-separated fields raises the format exception naming the file path. -/
theorem parse_binlog_wrong_count (datadir data : String)
    (h : (pySplitTab (pyStrip data)).length ≠ 2) :
    parse_xtrabackup_binlog_info datadir data =
      .error (.exception ("Error: Invalid format in file " ++
        pjoin datadir "xtrabackup_binlog_info")) := by
  unfold parse_xtrabackup_binlog_info
  rcases hsp : pySplitTab (pyStrip data) with _ | ⟨a, _ | ⟨b, _ | ⟨c, rest⟩⟩⟩
  · rfl
  · rfl
  · rw [hsp] at h
    simp at h
  · rfl

/-- A slave-info file on which the file pattern finds no match dies with
AttributeError (None.group), naming nothing. -/
theorem parse_slave_no_match (datadir data : String)
    (h : re_match_slave_file data = none) :
    parse_xtrabackup_slave_info datadir data = .error PyErr.attributeError := by
  unfold parse_xtrabackup_slave_info
  rw [h]

/-- C5 (amended): a well-formed slave-info CHANGE MASTER statement and a
well-formed binlog-info line each parse to the exact embedded (file,
position) pair, and a binlog-info file with the wrong field count fails
with the exception naming the offending file path; but a slave-info file
with no pattern match fails with an AttributeError that names no path,
not with a format error. -/
theorem claim_C5_amended (datadir : String) (f ds : List Char) (g : String)
    (es : List Char) (dbad dnm : String)
    (hf1 : f ≠ []) (hf2 : ∀ c ∈ f, isFileClassChar c = true)
    (hds1 : ds ≠ []) (hds2 : ∀ c ∈ ds, c.isDigit = true)
    (hg1 : g.data ≠ []) (hg2 : ∀ c ∈ g.data, c.isWhitespace = false)
    (hes1 : es ≠ []) (hes2 : ∀ c ∈ es, c.isDigit = true)
    (hbad : (pySplitTab (pyStrip dbad)).length ≠ 2)
    (hnm : re_match_slave_file dnm = none) :
    parse_xtrabackup_slave_info datadir (slaveData f ds) =
      .ok (String.mk f, (digitsVal ds : Int)) ∧
    parse_xtrabackup_binlog_info datadir (g ++ "\t" ++ String.mk es ++ "\n") =
      .ok (g, (digitsVal es : Int)) ∧
    parse_xtrabackup_binlog_info datadir dbad =
      .error (.exception ("Error: Invalid format in file " ++
        pjoin datadir "xtrabackup_binlog_info")) ∧
    parse_xtrabackup_slave_info datadir dnm = .error PyErr.attributeError :=
  ⟨parse_slave_canonical datadir f ds hf2 hf1 hds2 hds1,
   parse_binlog_canonical datadir g es hg1 hg2 hes1 hes2,
   parse_binlog_wrong_count datadir dbad hbad,
   parse_slave_no_match datadir dnm hnm⟩

theorem claim_C5_amended_witness :
    parse_xtrabackup_slave_info "/restore/data" (slaveData "mysql-bin.006233".data "863".data) =
      .ok ("mysql-bin.006233", 863) ∧
    parse_xtrabackup_binlog_info "/restore/data" ("mysql-bin.006231" ++ "\t" ++ "1619" ++ "\n") =
      .ok ("mysql-bin.006231", 1619) ∧
    parse_xtrabackup_binlog_info "/restore/data" "mysql-bin.006231 1619" =
      .error (.exception ("Error: Invalid format in file " ++
        pjoin "/restore/data" "xtrabackup_binlog_info")) ∧
    parse_xtrabackup_slave_info "/restore/data" "" = .error PyErr.attributeError :=
  claim_C5_amended "/restore/data" "mysql-bin.006233".data "863".data "mysql-bin.006231"
    "1619".data "mysql-bin.006231 1619" ""
    (by decide) (by decide) (by decide) (by decide) (by decide) (by decide)
    (by decide) (by decide) (by decide) (by decide)

/-! ## Lemmas about remove_backups -/

theorem pjoin_eq (bp n : String) (h : n.data.head? ≠ some '/') :
    pjoin bp n = joinPre bp ++ n := by
  unfold pjoin joinPre
  rw [if_neg (by simpa using h)]
  by_cases hb : (bp = "" || bp.data.getLast? == some '/') = true
  · rw [if_pos hb, if_pos hb]
  · rw [if_neg hb, if_neg hb]

theorem strAppend_cancel_left {p x y : String} (h : p ++ x = p ++ y) : x = y := by
  have hd := congrArg String.data h
  rw [String.data_append, String.data_append] at hd
  exact congrArg String.mk (List.append_cancel_left hd)

/-- The conditional companion deletion is an unconditional filter: when no
entry matches, the filter is the identity. -/
theorem ite_any_filter (bp log_file : String) (l : List (String × Nat)) :
    (if l.any (fun e => pjoin bp e.1 == log_file) then
        l.filter (fun e => pjoin bp e.1 != log_file)
      else l) = l.filter (fun e => pjoin bp e.1 != log_file) := by
  by_cases h : l.any (fun e => pjoin bp e.1 == log_file) = true
  · rw [if_pos h]
  · rw [if_neg h]
    symm
    refine List.filter_eq_self.mpr ?_
    intro a ha
    rw [List.any_eq_true] at h
    push_neg at h
    have hne := h a ha
    rw [bne_iff_ne]
    intro heq
    exact hne (beq_iff_eq.mpr heq)

/-- Running the deletion loop over a schedule whose paths are all present,
pairwise distinct, and never the companion log of one another deletes
exactly the scheduled paths and their companion logs. -/
theorem delete_loop_filter (bp : String) :
    ∀ (toDel : List (Nat × String)) (fs : List (String × Nat)),
    (∀ p ∈ toDel, ∃ e ∈ fs, pjoin bp e.1 = p.2) →
    (toDel.map Prod.snd).Nodup →
    (∀ p ∈ toDel, ∀ q ∈ toDel, p.2 ≠ q.2 ++ ".log") →
    delete_loop bp fs toDel =
      some (fs.filter (fun e => toDel.all
        (fun p => (pjoin bp e.1 != p.2) && (pjoin bp e.1 != p.2 ++ ".log")))) := by
  intro toDel
  induction toDel with
  | nil =>
    intro fs _ _ _
    simp [delete_loop, List.filter_eq_self]
  | cons p rest ih =>
    intro fs hpres hnd hlog
    obtain ⟨e0, he0, he0p⟩ := hpres p (by simp)
    have hany : fs.any (fun e => pjoin bp e.1 == p.2) = true :=
      List.any_eq_true.mpr ⟨e0, he0, beq_iff_eq.mpr he0p⟩
    have hnd' : (rest.map Prod.snd).Nodup := (List.nodup_cons.mp hnd).2
    have hsnd : p.2 ∉ rest.map Prod.snd := (List.nodup_cons.mp hnd).1
    have hlog' : ∀ x ∈ rest, ∀ y ∈ rest, x.2 ≠ y.2 ++ ".log" :=
      fun x hx y hy => hlog x (by simp [hx]) y (by simp [hy])
    have hpres' : ∀ q ∈ rest,
        ∃ e ∈ (fs.filter (fun e => pjoin bp e.1 != p.2)).filter
          (fun e => pjoin bp e.1 != p.2 ++ ".log"), pjoin bp e.1 = q.2 := by
      intro q hq
      obtain ⟨e, he, hep⟩ := hpres q (by simp [hq])
      refine ⟨e, ?_, hep⟩
      rw [List.mem_filter]
      refine ⟨List.mem_filter.mpr ⟨he, ?_⟩, ?_⟩
      · rw [bne_iff_ne]
        intro heq
        apply hsnd
        rw [← heq, hep]
        exact List.mem_map.mpr ⟨q, hq, rfl⟩
      · rw [bne_iff_ne]
        rw [hep]
        exact hlog q (by simp [hq]) p (by simp)
    simp only [delete_loop, osRemove, hany, if_true]
    rw [ite_any_filter bp (p.2 ++ ".log")]
    rw [ih _ hpres' hnd' hlog']
    refine congrArg some ?_
    rw [List.filter_filter, List.filter_filter]
    refine List.filter_congr ?_
    intro x hx
    simp [List.all_cons, Bool.and_comm, Bool.and_assoc, Bool.and_left_comm]

theorem strAppend_assoc (a b c : String) : a ++ b ++ c = a ++ (b ++ c) := by
  have hd : (a ++ b ++ c).data = (a ++ (b ++ c)).data := by
    simp [String.data_append, List.append_assoc]
  calc a ++ b ++ c = String.mk ((a ++ b ++ c).data) := rfl
    _ = String.mk ((a ++ (b ++ c)).data) := congrArg String.mk hd
    _ = a ++ (b ++ c) := rfl

theorem strAppend_cancel_right {p x y : String} (h : x ++ p = y ++ p) : x = y := by
  have hd := congrArg String.data h
  rw [String.data_append, String.data_append] at hd
  exact congrArg String.mk (List.append_cancel_right hd)

/-- C4: under the claim's own setup — distinct modification times among
the matched files, keep_newest below their count, honest directory
listing (no duplicate or absolute names), and no matched file being
another matched file's companion log — remove_backups succeeds, and the
surviving directory is exactly the original minus the scheduled files and
their companion logs (a missing companion is no error); the schedule has
exactly N - keep_newest entries, each drawn from the matched files, each
strictly older than every kept matched file; and every kept matched file
and its companion log survive. -/
theorem claim_C4_retention (backup_path : String) (dir : List (String × Nat))
    (extension : List String) (keep_newest : Nat)
    (hnodup : (dir.map Prod.fst).Nodup)
    (hnoslash : ∀ e ∈ dir, e.1.data.head? ≠ some '/')
    (hmt : ((matchedEntries dir extension).map Prod.snd).Nodup)
    (hcomp : ∀ a ∈ matchedEntries dir extension, ∀ b ∈ matchedEntries dir extension,
      b.1 ≠ a.1 ++ ".log")
    (hk : keep_newest < (matchedEntries dir extension).length) :
    remove_backups backup_path dir extension keep_newest =
      some (dir.filter (fun e =>
        (retention_toDel backup_path dir extension keep_newest).all
          (fun p => (pjoin backup_path e.1 != p.2) &&
            (pjoin backup_path e.1 != p.2 ++ ".log")))) ∧
    (retention_toDel backup_path dir extension keep_newest).length =
      (matchedEntries dir extension).length - keep_newest ∧
    (∀ p ∈ retention_toDel backup_path dir extension keep_newest,
      ∃ a ∈ matchedEntries dir extension, p = (a.2, pjoin backup_path a.1)) ∧
    (∀ p ∈ retention_toDel backup_path dir extension keep_newest,
      ∀ q ∈ retention_kept backup_path dir extension keep_newest, p.1 < q.1) ∧
    (∀ b ∈ matchedEntries dir extension,
      (b.2, pjoin backup_path b.1) ∈ retention_kept backup_path dir extension keep_newest →
      b ∈ dir.filter (fun e =>
        (retention_toDel backup_path dir extension keep_newest).all
          (fun p => (pjoin backup_path e.1 != p.2) &&
            (pjoin backup_path e.1 != p.2 ++ ".log"))) ∧
      ∀ m : Nat, (b.1 ++ ".log", m) ∈ dir →
        (b.1 ++ ".log", m) ∈ dir.filter (fun e =>
          (retention_toDel backup_path dir extension keep_newest).all
            (fun p => (pjoin backup_path e.1 != p.2) &&
              (pjoin backup_path e.1 != p.2 ++ ".log")))) := by
  have hM : matchedEntries dir extension = dir.filter (fun e => endswithAny extension e.1) := rfl
  have hMsub : ∀ a ∈ matchedEntries dir extension, a ∈ dir := by
    intro a ha
    rw [hM] at ha
    exact List.mem_of_mem_filter ha
  have hMnames : ((matchedEntries dir extension).map Prod.fst).Nodup := by
    refine List.Nodup.sublist ?_ hnodup
    refine List.Sublist.map _ ?_
    rw [hM]
    exact List.filter_sublist dir
  have hMnodup : (matchedEntries dir extension).Nodup := hMnames.of_map
  have hnameinj := List.inj_on_of_nodup_map hMnames
  have hpj : ∀ a ∈ dir, pjoin backup_path a.1 = joinPre backup_path ++ a.1 :=
    fun a ha => pjoin_eq _ _ (hnoslash a ha)
  have hpathinj : ∀ a ∈ dir, ∀ b ∈ dir,
      pjoin backup_path a.1 = pjoin backup_path b.1 → a.1 = b.1 := by
    intro a ha b hb h
    rw [hpj a ha, hpj b hb] at h
    exact strAppend_cancel_left h
  have hfileseq : retention_files backup_path dir extension =
      (matchedEntries dir extension).map (fun e => (e.2, pjoin backup_path e.1)) := rfl
  have hlenfiles : (retention_files backup_path dir extension).length =
      (matchedEntries dir extension).length := by
    rw [hfileseq, List.length_map]
  have hperm : (retention_sorted backup_path dir extension).Perm
      (retention_files backup_path dir extension) := List.perm_insertionSort _ _
  have hlensorted : (retention_sorted backup_path dir extension).length =
      (matchedEntries dir extension).length := by
    rw [hperm.length_eq, hlenfiles]
  have hsndeq : (retention_files backup_path dir extension).map Prod.snd =
      (matchedEntries dir extension).map (fun e => pjoin backup_path e.1) := by
    rw [hfileseq, List.map_map]
    rfl
  have hfsteq : (retention_files backup_path dir extension).map Prod.fst =
      (matchedEntries dir extension).map Prod.snd := by
    rw [hfileseq, List.map_map]
    rfl
  have hpathsnodup : ((retention_files backup_path dir extension).map Prod.snd).Nodup := by
    rw [hsndeq]
    refine List.Nodup.map_on ?_ hMnodup
    intro x hx y hy hf
    exact hnameinj hx hy (hpathinj x (hMsub x hx) y (hMsub y hy) hf)
  have hsortpaths : ((retention_sorted backup_path dir extension).map Prod.snd).Nodup :=
    ((hperm.map Prod.snd).nodup_iff).mpr hpathsnodup
  have hsortfst : ((retention_sorted backup_path dir extension).map Prod.fst).Nodup :=
    ((hperm.map Prod.fst).nodup_iff).mpr (by rw [hfsteq]; exact hmt)
  have hfromM : ∀ p ∈ retention_toDel backup_path dir extension keep_newest,
      ∃ a ∈ matchedEntries dir extension, p = (a.2, pjoin backup_path a.1) := by
    intro p hp
    have hp' : p ∈ retention_sorted backup_path dir extension :=
      List.take_subset _ _ hp
    have hp'' : p ∈ retention_files backup_path dir extension := hperm.subset hp'
    rw [hfileseq] at hp''
    obtain ⟨a, ha, hae⟩ := List.mem_map.mp hp''
    exact ⟨a, ha, hae.symm⟩
  have hpres : ∀ p ∈ retention_toDel backup_path dir extension keep_newest,
      ∃ e ∈ dir, pjoin backup_path e.1 = p.2 := by
    intro p hp
    obtain ⟨a, ha, rfl⟩ := hfromM p hp
    exact ⟨a, hMsub a ha, rfl⟩
  have hndpaths : ((retention_toDel backup_path dir extension keep_newest).map
      Prod.snd).Nodup :=
    List.Nodup.sublist (List.Sublist.map _ (List.take_sublist _ _)) hsortpaths
  have hlogs : ∀ p ∈ retention_toDel backup_path dir extension keep_newest,
      ∀ q ∈ retention_toDel backup_path dir extension keep_newest,
      p.2 ≠ q.2 ++ ".log" := by
    intro p hp q hq
    obtain ⟨a, ha, rfl⟩ := hfromM p hp
    obtain ⟨b, hb, rfl⟩ := hfromM q hq
    show pjoin backup_path a.1 ≠ pjoin backup_path b.1 ++ ".log"
    rw [hpj a (hMsub a ha), hpj b (hMsub b hb), strAppend_assoc]
    intro h
    exact hcomp b hb a ha (strAppend_cancel_left h)
  have hmain : remove_backups backup_path dir extension keep_newest =
      some (dir.filter (fun e =>
        (retention_toDel backup_path dir extension keep_newest).all
          (fun p => (pjoin backup_path e.1 != p.2) &&
            (pjoin backup_path e.1 != p.2 ++ ".log")))) := by
    have hrb : remove_backups backup_path dir extension keep_newest =
        delete_loop backup_path dir
          (retention_toDel backup_path dir extension keep_newest) := rfl
    rw [hrb]
    exact delete_loop_filter backup_path _ dir hpres hndpaths hlogs
  have htdd := List.take_append_drop
    ((retention_files backup_path dir extension).length - keep_newest)
    (retention_sorted backup_path dir extension)
  have hpw : ∀ p ∈ retention_toDel backup_path dir extension keep_newest,
      ∀ q ∈ retention_kept backup_path dir extension keep_newest, fileLe p q := by
    have h : List.Pairwise fileLe (retention_sorted backup_path dir extension) :=
      List.sorted_insertionSort _ _
    rw [← htdd] at h
    exact fun p hp q hq => (List.pairwise_append.mp h).2.2 p hp q hq
  have hfstdisj : ∀ p ∈ retention_toDel backup_path dir extension keep_newest,
      ∀ q ∈ retention_kept backup_path dir extension keep_newest, p.1 ≠ q.1 := by
    have h := hsortfst
    rw [← htdd, List.map_append] at h
    have hd := (List.nodup_append.mp h).2.2
    intro p hp q hq heq
    exact hd (List.mem_map_of_mem _ hp) (by rw [heq]; exact List.mem_map_of_mem _ hq)
  have hpathdisj : ∀ p ∈ retention_toDel backup_path dir extension keep_newest,
      ∀ q ∈ retention_kept backup_path dir extension keep_newest, p.2 ≠ q.2 := by
    have h := hsortpaths
    rw [← htdd, List.map_append] at h
    have hd := (List.nodup_append.mp h).2.2
    intro p hp q hq heq
    exact hd (List.mem_map_of_mem _ hp) (by rw [heq]; exact List.mem_map_of_mem _ hq)
  refine ⟨hmain, ?_, hfromM, ?_, ?_⟩
  · show (retention_toDel backup_path dir extension keep_newest).length = _
    unfold retention_toDel
    rw [List.length_take, hlenfiles, min_eq_left (by rw [hlensorted]; omega)]
  · intro p hp q hq
    rcases hpw p hp q hq with h | ⟨he, _⟩
    · exact h
    · exact absurd he (hfstdisj p hp q hq)
  · intro b hb hbkept
    have hbdir := hMsub b hb
    constructor
    · rw [List.mem_filter]
      refine ⟨hbdir, ?_⟩
      rw [List.all_eq_true]
      intro p hp
      obtain ⟨a, ha, rfl⟩ := hfromM p hp
      rw [Bool.and_eq_true, bne_iff_ne, bne_iff_ne]
      constructor
      · intro h
        exact hpathdisj _ hp _ hbkept h.symm
      · rw [hpj b hbdir, hpj a (hMsub a ha), strAppend_assoc]
        intro h
        exact hcomp a ha b hb (strAppend_cancel_left h)
    · intro m hm
      rw [List.mem_filter]
      refine ⟨hm, ?_⟩
      rw [List.all_eq_true]
      intro p hp
      obtain ⟨a, ha, rfl⟩ := hfromM p hp
      rw [Bool.and_eq_true, bne_iff_ne, bne_iff_ne]
      constructor
      · show pjoin backup_path (b.1 ++ ".log") ≠ pjoin backup_path a.1
        rw [hpj _ hm, hpj a (hMsub a ha)]
        intro h
        exact hcomp b hb a ha (strAppend_cancel_left h).symm
      · show pjoin backup_path (b.1 ++ ".log") ≠ pjoin backup_path a.1 ++ ".log"
        rw [hpj _ hm, hpj a (hMsub a ha), strAppend_assoc]
        intro h
        have hba : b.1 = a.1 := strAppend_cancel_right (strAppend_cancel_left h)
        refine hpathdisj _ hp _ hbkept ?_
        show pjoin backup_path a.1 = pjoin backup_path b.1
        rw [hba]

theorem claim_C4_retention_witness :
    remove_backups "/backup/mysql/3306"
      [("a.xbstream", 1), ("b.xbstream", 2), ("a.xbstream.log", 10),
       ("b.xbstream.log", 20), ("c.txt", 5)] [".xbstream"] 1 =
      some [("b.xbstream", 2), ("b.xbstream.log", 20), ("c.txt", 5)] ∧
    (retention_toDel "/backup/mysql/3306"
      [("a.xbstream", 1), ("b.xbstream", 2), ("a.xbstream.log", 10),
       ("b.xbstream.log", 20), ("c.txt", 5)] [".xbstream"] 1).length = 1 := by
  have h := claim_C4_retention "/backup/mysql/3306"
    [("a.xbstream", 1), ("b.xbstream", 2), ("a.xbstream.log", 10),
     ("b.xbstream.log", 20), ("c.txt", 5)] [".xbstream"] 1
    (by decide) (by decide) (by decide) (by decide) (by decide)
  exact ⟨h.1.trans (by decide), h.2.1.trans (by decide)⟩

end MysqlBackup
